import Mathlib

/-!
Formal model of the Remitwise Soroban contracts, shallowly embedded from
src/remittance_split/src/lib.rs and src/savings_goals/src/lib.rs.

Modelling conventions:
- `Address` is modelled as `Nat` (an opaque, equality-comparable principal id).
- `u32`/`u64` values are `Nat` with explicit `% 2^64` where the source uses
  wrapping arithmetic, and explicit bound checks where it uses checked
  arithmetic; `i128` values are `Int` with explicit range checks mirroring
  Rust's `checked_mul` / `checked_add` / `checked_sub`.
- Soroban `Map` is key-ordered; we model it as an association list kept
  sorted by key (`amSet` inserts in key order, matching Map canonical form).
- A contract call that panics traps in the Soroban host and reverts every
  storage write of the call.  Operations are therefore modelled as
  `State → args → Except Err (State × result)`: an `.error` outcome means
  the call aborted and the caller-visible state is unchanged.  Non-panicking
  early returns (such as `distribute_usdc` returning `false` for a
  non-positive amount) are `.ok` outcomes carrying their committed effects.
- `require_auth` is an external capability; claims concern authorized
  callers, so calls are modelled as already authorized.
- `env.ledger().timestamp()` is passed to mutating calls as a `ts` argument.
-/

/-- Abort conditions of the contracts (each `panic!` / `expect` site). -/
inductive Err where
  | invalidNonce
  | nonceOverflow
  | alreadyInitialized
  | percentSumNot100
  | overflow
  | notInitialized
  | notOwner
  | unsupportedVersion
  | checksumMismatch
  | nonPositiveAmount
  | goalNotFound
  | lockedGoal
  | insufficientBalance
  | externalAbort
deriving DecidableEq

def U32 : Nat := 2 ^ 32

def U64 : Nat := 2 ^ 64

def I128MAX : Int := 2 ^ 127 - 1

def I128MIN : Int := -(2 ^ 127)

/-- Rust `u32::checked_add` (both arguments assumed in range). -/
def chkAddU32 (a b : Nat) : Option Nat :=
  if a + b < U32 then some (a + b) else none

/-- Modelled from the spec: the percentage-sum expression
`spending_percent + savings_percent + bills_percent + insurance_percent`
is plain `u32` addition in the source; whether it wraps or aborts on
overflow is decided by the crate profile (Cargo.toml `overflow-checks`),
which is not among the provided source files.  Section 4.5 step 4 of the
spec mandates overflow-checked arithmetic that aborts rather than wrapping,
so the addition chain is modelled as left-associated checked additions. -/
def sum4 (a b c d : Nat) : Option Nat :=
  (chkAddU32 a b).bind fun x => (chkAddU32 x c).bind fun y => chkAddU32 y d

/-- Rust `i128::checked_add`. -/
def chkAddI (a b : Int) : Option Int :=
  if I128MIN ≤ a + b ∧ a + b ≤ I128MAX then some (a + b) else none

/-- Rust `i128::checked_sub`. -/
def chkSubI (a b : Int) : Option Int :=
  if I128MIN ≤ a - b ∧ a - b ≤ I128MAX then some (a - b) else none

/-- Rust `i128::checked_mul`. -/
def chkMulI (a b : Int) : Option Int :=
  if I128MIN ≤ a * b ∧ a * b ≤ I128MAX then some (a * b) else none

/-- Rust `x as u64` on an `i128`: the low 64 bits, i.e. the value mod 2^64. -/
def toU64 (x : Int) : Nat := (Int.emod x (2 ^ 64)).toNat

/-- Key-ordered association-list update, modelling `soroban_sdk::Map::set`
(Soroban maps are canonical, ordered by key). -/
def amSet {α : Type} : List (Nat × α) → Nat → α → List (Nat × α)
  | [], k, v => [(k, v)]
  | (k0, v0) :: t, k, v =>
    if k < k0 then (k, v) :: (k0, v0) :: t
    else if k = k0 then (k, v) :: t
    else (k0, v0) :: amSet t k v

/-- Association-list lookup, modelling `soroban_sdk::Map::get`. -/
def amGet {α : Type} : List (Nat × α) → Nat → Option α
  | [], _ => none
  | (k0, v0) :: t, k => if k = k0 then some v0 else amGet t k

/-- Audit log entry (identical struct in both contracts):
(operation, caller, timestamp, success). -/
structure AuditEntry where
  operation : String
  caller : Nat
  timestamp : Nat
  success : Bool
deriving DecidableEq

def MAX_AUDIT_ENTRIES : Nat := 100

/-- `append_audit` (identical in both contracts): if the log already holds
`MAX_AUDIT_ENTRIES` entries the loop copies entries `1..len`, dropping the
oldest entry at index 0, then the new entry is pushed at the back. -/
def append_audit (log : List AuditEntry) (e : AuditEntry) : List AuditEntry :=
  (if MAX_AUDIT_ENTRIES ≤ log.length then log.drop 1 else log) ++ [e]

/-- `get_audit_log` (identical in both contracts): returns entries
`from_index .. min (from_index + min MAX_AUDIT_ENTRIES limit) len`,
or the empty list when `from_index` is past the end. -/
def get_audit_log (log : List AuditEntry) (from_index limit : Nat) : List AuditEntry :=
  if log.length ≤ from_index then []
  else (log.drop from_index).take
    (min (from_index + min MAX_AUDIT_ENTRIES limit) log.length - from_index)

/-- `get_nonce` (identical in both contracts): the stored per-principal
counter, defaulting to 0 for unseen principals. -/
def get_nonce (nonces : List (Nat × Nat)) (address : Nat) : Nat :=
  (amGet nonces address).getD 0

/-- `increment_nonce` (identical in both contracts): `checked_add(1)` on the
`u64` counter, aborting on overflow. -/
def increment_nonce (nonces : List (Nat × Nat)) (address : Nat) :
    Except Err (List (Nat × Nat)) :=
  if get_nonce nonces address + 1 < U64 then
    .ok (amSet nonces address (get_nonce nonces address + 1))
  else .error .nonceOverflow

def SNAPSHOT_VERSION : Nat := 1

namespace Remit

/-- `SplitConfig` from src/remittance_split/src/lib.rs. -/
structure SplitConfig where
  owner : Nat
  spending_percent : Nat
  savings_percent : Nat
  bills_percent : Nat
  insurance_percent : Nat
  initialized : Bool
deriving DecidableEq

/-- `ExportSnapshot` from src/remittance_split/src/lib.rs. -/
structure ExportSnapshot where
  version : Nat
  checksum : Nat
  config : SplitConfig
deriving DecidableEq

/-- Instance storage of the remittance-split contract:
CONFIG, SPLIT, NONCES and AUDIT keys. -/
structure State where
  config : Option SplitConfig
  split : Option (Nat × Nat × Nat × Nat)
  nonces : List (Nat × Nat)
  audit : List AuditEntry
deriving DecidableEq

/-- Fresh contract instance: no storage keys set. -/
def stInit : State := ⟨none, none, [], []⟩

/-- `compute_checksum`: wrapping u64 accumulation of version and the four
percentages, finally wrapping-multiplied by 31. -/
def compute_checksum (version : Nat) (config : SplitConfig) : Nat :=
  (((((version + config.spending_percent) % U64 + config.savings_percent) % U64
      + config.bills_percent) % U64 + config.insurance_percent) % U64 * 31) % U64

/-- `get_split`: the stored SPLIT vector, or the default `[50, 30, 15, 5]`. -/
def get_split (s : State) : Nat × Nat × Nat × Nat :=
  s.split.getD (50, 30, 15, 5)

/-- `calculate_split`: three shares by checked `total * pct / 100`
(`i128` truncating division), the fourth as the checked remainder. -/
def calculate_split (s : State) (total_amount : Int) :
    Except Err (Int × Int × Int × Int) :=
  if total_amount ≤ 0 then .error .nonPositiveAmount
  else
    match (chkMulI total_amount ((get_split s).1 : Int)).map (fun n => Int.tdiv n 100),
          (chkMulI total_amount ((get_split s).2.1 : Int)).map (fun n => Int.tdiv n 100),
          (chkMulI total_amount ((get_split s).2.2.1 : Int)).map (fun n => Int.tdiv n 100) with
    | some spending, some savings, some bills =>
      match (chkSubI total_amount spending).bind fun x =>
            (chkSubI x savings).bind fun y => chkSubI y bills with
      | some insurance => .ok (spending, savings, bills, insurance)
      | none => .error .overflow
    | _, _, _ => .error .overflow

/-- `initialize_split`: nonce check, reject if CONFIG exists, percentages
must sum to 100, then store CONFIG and SPLIT, advance the nonce and append
a success audit entry. -/
def initialize_split (s : State) (owner nonce a b c d ts : Nat) :
    Except Err (State × Bool) :=
  if nonce ≠ get_nonce s.nonces owner then .error .invalidNonce
  else
    match s.config with
    | some _ => .error .alreadyInitialized
    | none =>
      match sum4 a b c d with
      | none => .error .overflow
      | some total =>
        if total ≠ 100 then .error .percentSumNot100
        else
          match increment_nonce s.nonces owner with
          | .error e => .error e
          | .ok m =>
            .ok ({ config := some ⟨owner, a, b, c, d, true⟩,
                   split := some (a, b, c, d),
                   nonces := m,
                   audit := append_audit s.audit ⟨"init", owner, ts, true⟩ }, true)

/-- `update_split`: nonce check, CONFIG must exist and be owned by the
caller, percentages must sum to 100, then overwrite the four percentages,
advance the nonce and append a success audit entry. -/
def update_split (s : State) (caller nonce a b c d ts : Nat) :
    Except Err (State × Bool) :=
  if nonce ≠ get_nonce s.nonces caller then .error .invalidNonce
  else
    match s.config with
    | none => .error .notInitialized
    | some cfg =>
      if cfg.owner ≠ caller then .error .notOwner
      else
        match sum4 a b c d with
        | none => .error .overflow
        | some total =>
          if total ≠ 100 then .error .percentSumNot100
          else
            match increment_nonce s.nonces caller with
            | .error e => .error e
            | .ok m =>
              .ok ({ config := some ⟨cfg.owner, a, b, c, d, cfg.initialized⟩,
                     split := some (a, b, c, d),
                     nonces := m,
                     audit := append_audit s.audit ⟨"update", caller, ts, true⟩ }, true)

/-- `distribute_usdc`: a non-positive total appends a failed audit entry and
returns `false` without panicking (this commits); otherwise nonce check,
split calculation, token transfers (an external sub-call whose abort aborts
the whole call, modelled by the `transfers_ok` flag), nonce advance and a
success audit entry. -/
def distribute_usdc (s : State) (from_addr nonce : Nat) (total_amount : Int)
    (transfers_ok : Bool) (ts : Nat) : Except Err (State × Bool) :=
  if total_amount ≤ 0 then
    .ok ({ s with audit := append_audit s.audit ⟨"distrib", from_addr, ts, false⟩ }, false)
  else if nonce ≠ get_nonce s.nonces from_addr then .error .invalidNonce
  else
    match calculate_split s total_amount with
    | .error e => .error e
    | .ok _amounts =>
      if transfers_ok = false then .error .externalAbort
      else
        match increment_nonce s.nonces from_addr with
        | .error e => .error e
        | .ok m =>
          .ok ({ s with nonces := m, audit := append_audit s.audit ⟨"distrib", from_addr, ts, true⟩ }, true)

/-- `export_snapshot`: `None` when CONFIG is absent (the `?` operator),
owner-only, checksummed over the current config. -/
def export_snapshot (s : State) (caller : Nat) : Except Err (Option ExportSnapshot) :=
  match s.config with
  | none => .ok none
  | some config =>
    if config.owner ≠ caller then .error .notOwner
    else .ok (some ⟨SNAPSHOT_VERSION, compute_checksum SNAPSHOT_VERSION config, config⟩)

/-- `import_snapshot` of the remittance-split contract: nonce check, version
check, checksum check, CONFIG must exist and be owned by the caller,
snapshot percentages must sum to 100, then CONFIG and SPLIT are replaced,
the nonce advanced and a success audit entry appended. -/
def import_snapshot (s : State) (caller nonce : Nat) (snapshot : ExportSnapshot)
    (ts : Nat) : Except Err (State × Bool) :=
  if nonce ≠ get_nonce s.nonces caller then .error .invalidNonce
  else if snapshot.version ≠ SNAPSHOT_VERSION then .error .unsupportedVersion
  else if snapshot.checksum ≠ compute_checksum snapshot.version snapshot.config then
    .error .checksumMismatch
  else
    match s.config with
    | none => .error .notInitialized
    | some existing =>
      if existing.owner ≠ caller then .error .notOwner
      else
        match sum4 snapshot.config.spending_percent snapshot.config.savings_percent
              snapshot.config.bills_percent snapshot.config.insurance_percent with
        | none => .error .overflow
        | some total =>
          if total ≠ 100 then .error .percentSumNot100
          else
            match increment_nonce s.nonces caller with
            | .error e => .error e
            | .ok m =>
              .ok ({ config := some snapshot.config,
                     split := some (snapshot.config.spending_percent, snapshot.config.savings_percent, snapshot.config.bills_percent, snapshot.config.insurance_percent),
                     nonces := m,
                     audit := append_audit s.audit ⟨"import", caller, ts, true⟩ }, true)

/-- One mutating call of the remittance-split contract. -/
inductive Op where
  | initS (a b c d : Nat)
  | updS (a b c d : Nat)
  | dist (total : Int) (transfers_ok : Bool)
  | imp (snapshot : ExportSnapshot)

/-- Dispatcher over the mutating calls. -/
def run (s : State) (caller nonce ts : Nat) : Op → Except Err (State × Bool)
  | .initS a b c d => initialize_split s caller nonce a b c d ts
  | .updS a b c d => update_split s caller nonce a b c d ts
  | .dist total ok => distribute_usdc s caller nonce total ok ts
  | .imp snapshot => import_snapshot s caller nonce snapshot ts

/-- States reachable from a fresh instance by mutating calls (failed calls
trap and leave the state unchanged, so only `.ok` outcomes step). -/
inductive Reach : State → Prop
  | init : Reach stInit
  | step {s s' : State} {c n ts : Nat} {op : Op} {b : Bool} :
      Reach s → run s c n ts op = .ok (s', b) → Reach s'

end Remit

namespace Goals

/-- `SavingsGoal` from src/savings_goals/src/lib.rs. -/
structure SavingsGoal where
  id : Nat
  owner : Nat
  name : String
  target_amount : Int
  current_amount : Int
  target_date : Nat
  locked : Bool
deriving DecidableEq

/-- `GoalsExportSnapshot` from src/savings_goals/src/lib.rs. -/
structure GoalsExportSnapshot where
  version : Nat
  checksum : Nat
  next_id : Nat
  goals : List SavingsGoal
deriving DecidableEq

/-- Instance storage of the savings-goals contract:
GOALS, NEXT_ID, NONCES and AUDIT keys (absent GOALS and NEXT_ID read as the
empty map and 0, which every access defaults to). -/
structure State where
  goals : List (Nat × SavingsGoal)
  next_id : Nat
  nonces : List (Nat × Nat)
  audit : List AuditEntry
deriving DecidableEq

/-- Fresh contract instance. -/
def stInit : State := ⟨[], 0, [], []⟩

/-- `compute_goals_checksum`: wrapping u64 accumulation of version, next_id
and each goal's id, target amount and current amount (the two `i128`
amounts cast to `u64`), finally wrapping-multiplied by 31. -/
def compute_goals_checksum (version next_id : Nat) (goals : List SavingsGoal) : Nat :=
  (goals.foldl
    (fun c g => (((c + g.id) % U64 + toU64 g.target_amount) % U64
      + toU64 g.current_amount) % U64)
    ((version + next_id) % U64) * 31) % U64

/-- `create_goal`: positive target required, id allocated as stored
NEXT_ID + 1 (checked u32 increment), goal stored with `current_amount = 0`
and `locked = true`, success audit entry appended.  No nonce is involved. -/
def create_goal (s : State) (owner : Nat) (name : String) (target_amount : Int)
    (target_date ts : Nat) : Except Err (State × Nat) :=
  if target_amount ≤ 0 then .error .nonPositiveAmount
  else if s.next_id + 1 < U32 then
    .ok ({ goals := amSet s.goals (s.next_id + 1)
             ⟨s.next_id + 1, owner, name, target_amount, 0, target_date, true⟩,
           next_id := s.next_id + 1,
           nonces := s.nonces,
           audit := append_audit s.audit ⟨"create", owner, ts, true⟩ }, s.next_id + 1)
  else .error .overflow

/-- `add_to_goal`: positive amount, goal must exist and be owned by the
caller, `checked_add` on the balance, store back, success audit entry.
No nonce is involved. -/
def add_to_goal (s : State) (caller goal_id : Nat) (amount : Int) (ts : Nat) :
    Except Err (State × Int) :=
  if amount ≤ 0 then .error .nonPositiveAmount
  else
    match amGet s.goals goal_id with
    | none => .error .goalNotFound
    | some g =>
      if g.owner ≠ caller then .error .notOwner
      else
        match chkAddI g.current_amount amount with
        | none => .error .overflow
        | some na =>
          .ok ({ s with
                 goals := amSet s.goals goal_id
                   ⟨g.id, g.owner, g.name, g.target_amount, na, g.target_date, g.locked⟩,
                 audit := append_audit s.audit ⟨"add", caller, ts, true⟩ }, na)

/-- `withdraw_from_goal`: positive amount, goal must exist and be owned by
the caller, goal must be unlocked, balance must suffice, `checked_sub`,
store back, success audit entry.  No nonce is involved.  Note the order of
the checks: the amount check precedes the lock check. -/
def withdraw_from_goal (s : State) (caller goal_id : Nat) (amount : Int) (ts : Nat) :
    Except Err (State × Int) :=
  if amount ≤ 0 then .error .nonPositiveAmount
  else
    match amGet s.goals goal_id with
    | none => .error .goalNotFound
    | some g =>
      if g.owner ≠ caller then .error .notOwner
      else if g.locked then .error .lockedGoal
      else if g.current_amount < amount then .error .insufficientBalance
      else
        match chkSubI g.current_amount amount with
        | none => .error .overflow
        | some na =>
          .ok ({ s with
                 goals := amSet s.goals goal_id
                   ⟨g.id, g.owner, g.name, g.target_amount, na, g.target_date, g.locked⟩,
                 audit := append_audit s.audit ⟨"withdraw", caller, ts, true⟩ }, na)

/-- `lock_goal`: goal must exist and be owned by the caller; sets
`locked := true`.  No nonce is involved. -/
def lock_goal (s : State) (caller goal_id ts : Nat) : Except Err (State × Bool) :=
  match amGet s.goals goal_id with
  | none => .error .goalNotFound
  | some g =>
    if g.owner ≠ caller then .error .notOwner
    else
      .ok ({ s with
             goals := amSet s.goals goal_id
               ⟨g.id, g.owner, g.name, g.target_amount, g.current_amount, g.target_date, true⟩,
             audit := append_audit s.audit ⟨"lock", caller, ts, true⟩ }, true)

/-- `unlock_goal`: goal must exist and be owned by the caller; sets
`locked := false`.  No nonce is involved. -/
def unlock_goal (s : State) (caller goal_id ts : Nat) : Except Err (State × Bool) :=
  match amGet s.goals goal_id with
  | none => .error .goalNotFound
  | some g =>
    if g.owner ≠ caller then .error .notOwner
    else
      .ok ({ s with
             goals := amSet s.goals goal_id
               ⟨g.id, g.owner, g.name, g.target_amount, g.current_amount, g.target_date, false⟩,
             audit := append_audit s.audit ⟨"unlock", caller, ts, true⟩ }, true)

/-- The `for i in 1..=next_id` collection loop of `export_snapshot`. -/
def collectGoals (goals : List (Nat × SavingsGoal)) (next_id : Nat) : List SavingsGoal :=
  (List.range' 1 next_id).filterMap (fun i => amGet goals i)

/-- `export_snapshot` of the savings-goals contract: requires only caller
authorization (no ownership restriction), collects goals with ids
`1..=next_id` and checksums them together with the version and next_id. -/
def export_snapshot (s : State) (_caller : Nat) : GoalsExportSnapshot :=
  ⟨SNAPSHOT_VERSION,
   compute_goals_checksum SNAPSHOT_VERSION s.next_id (collectGoals s.goals s.next_id),
   s.next_id, collectGoals s.goals s.next_id⟩

/-- `import_snapshot` of the savings-goals contract: nonce check, version
check, checksum check, then the GOALS map is rebuilt from the snapshot list
(keyed by each goal's `id` field) and NEXT_ID replaced; nonce advanced and
a success audit entry appended.  There is no ownership check. -/
def import_snapshot (s : State) (caller nonce : Nat) (snapshot : GoalsExportSnapshot)
    (ts : Nat) : Except Err (State × Bool) :=
  if nonce ≠ get_nonce s.nonces caller then .error .invalidNonce
  else if snapshot.version ≠ SNAPSHOT_VERSION then .error .unsupportedVersion
  else if snapshot.checksum ≠
      compute_goals_checksum snapshot.version snapshot.next_id snapshot.goals then
    .error .checksumMismatch
  else
    match increment_nonce s.nonces caller with
    | .error e => .error e
    | .ok m =>
      .ok ({ goals := snapshot.goals.foldl (fun acc g => amSet acc g.id g) [],
             next_id := snapshot.next_id,
             nonces := m,
             audit := append_audit s.audit ⟨"import", caller, ts, true⟩ }, true)

/-- One mutating call of the savings-goals contract. -/
inductive Op where
  | create (name : String) (target_amount : Int) (target_date : Nat)
  | add (goal_id : Nat) (amount : Int)
  | withdraw (goal_id : Nat) (amount : Int)
  | lock (goal_id : Nat)
  | unlock (goal_id : Nat)
  | imp (nonce : Nat) (snapshot : GoalsExportSnapshot)

/-- Dispatcher over the mutating calls (results dropped). -/
def run (s : State) (caller ts : Nat) : Op → Except Err State
  | .create nm t d => (create_goal s caller nm t d ts).map Prod.fst
  | .add gid amt => (add_to_goal s caller gid amt ts).map Prod.fst
  | .withdraw gid amt => (withdraw_from_goal s caller gid amt ts).map Prod.fst
  | .lock gid => (lock_goal s caller gid ts).map Prod.fst
  | .unlock gid => (unlock_goal s caller gid ts).map Prod.fst
  | .imp n snap => (import_snapshot s caller n snap ts).map Prod.fst

/-- States reachable from a fresh instance by mutating calls. -/
inductive Reach : State → Prop
  | init : Reach stInit
  | step {s s' : State} {c ts : Nat} {op : Op} :
      Reach s → run s c ts op = .ok s' → Reach s'

end Goals

set_option maxRecDepth 10000

theorem amGet_amSet {α : Type} (m : List (Nat × α)) (k : Nat) (v : α) (j : Nat) :
    amGet (amSet m k v) j = if j = k then some v else amGet m j := by
  induction m with
  | nil => simp [amSet, amGet]
  | cons kv t ih =>
    obtain ⟨k0, v0⟩ := kv
    by_cases h1 : k < k0
    · rw [show amSet ((k0, v0) :: t) k v = (k, v) :: (k0, v0) :: t from by
        simp [amSet, h1]]
      rfl
    · by_cases h2 : k = k0
      · subst h2
        rw [show amSet ((k, v0) :: t) k v = (k, v) :: t from by
          simp [amSet, h1]]
        rcases eq_or_ne j k with rfl | hj
        · simp [amGet]
        · simp [amGet, hj]
      · rw [show amSet ((k0, v0) :: t) k v = (k0, v0) :: amSet t k v from by
          simp [amSet, h1, h2]]
        rcases eq_or_ne j k0 with rfl | hj
        · have hk : ¬ (j = k) := fun hh => h2 hh.symm
          simp [amGet, hk]
        · simp [amGet, hj, ih]

theorem get_nonce_amSet (m : List (Nat × Nat)) (a v p : Nat) :
    get_nonce (amSet m a v) p = if p = a then v else get_nonce m p := by
  unfold get_nonce
  rw [amGet_amSet]
  split <;> rfl

theorem increment_nonce_ok {m m' : List (Nat × Nat)} {a : Nat}
    (h : increment_nonce m a = .ok m') :
    get_nonce m a + 1 < U64 ∧ m' = amSet m a (get_nonce m a + 1) := by
  unfold increment_nonce at h
  split at h
  · exact ⟨by assumption, by injection h with h2; exact h2.symm⟩
  · exact Except.noConfusion h

theorem sum4_some {a b c d t : Nat} (h : sum4 a b c d = some t) :
    t = a + b + c + d := by
  unfold sum4 chkAddU32 at h
  repeat' first
  | rw [Option.some_bind] at h
  | rw [Option.none_bind] at h
  | split at h
  all_goals simp_all

theorem sum4_of_eq_100 {a b c d : Nat} (h : a + b + c + d = 100) :
    sum4 a b c d = some 100 := by
  unfold sum4 chkAddU32
  have h1 : a + b < U32 := by unfold U32; omega
  have h2 : a + b + c < U32 := by unfold U32; omega
  have h3 : a + b + c + d < U32 := by unfold U32; omega
  have h4 : (100 : Nat) < U32 := by unfold U32; omega
  simp [h1, h2, h3, h4, h]

theorem remit_init_ok {s : Remit.State} {o n a b c d ts : Nat}
    {s' : Remit.State} {r : Bool}
    (h : Remit.initialize_split s o n a b c d ts = .ok (s', r)) :
    n = get_nonce s.nonces o ∧ s.config = none ∧ a + b + c + d = 100 ∧
    get_nonce s.nonces o + 1 < U64 ∧
    s' = ⟨some ⟨o, a, b, c, d, true⟩, some (a, b, c, d),
          amSet s.nonces o (get_nonce s.nonces o + 1),
          append_audit s.audit ⟨"init", o, ts, true⟩⟩ ∧ r = true := by
  unfold Remit.initialize_split at h
  repeat' split at h
  all_goals simp_all
  rename_i hn hcfg hsum htot hinc
  obtain ⟨hlt, hm⟩ := increment_nonce_ok hinc
  subst hm
  exact ⟨(sum4_some hsum).symm, hlt, h.1.symm⟩

theorem remit_update_ok {s : Remit.State} {o n a b c d ts : Nat}
    {s' : Remit.State} {r : Bool}
    (h : Remit.update_split s o n a b c d ts = .ok (s', r)) :
    ∃ cfg, n = get_nonce s.nonces o ∧ s.config = some cfg ∧ cfg.owner = o ∧
    a + b + c + d = 100 ∧ get_nonce s.nonces o + 1 < U64 ∧
    s' = ⟨some ⟨cfg.owner, a, b, c, d, cfg.initialized⟩, some (a, b, c, d),
          amSet s.nonces o (get_nonce s.nonces o + 1),
          append_audit s.audit ⟨"update", o, ts, true⟩⟩ ∧ r = true := by
  unfold Remit.update_split at h
  repeat' split at h
  all_goals simp_all
  rename_i hn hcfg how hsum htot hinc
  obtain ⟨hlt, hm⟩ := increment_nonce_ok hinc
  subst hm
  exact ⟨(sum4_some hsum).symm, hlt, h.1.symm⟩

theorem remit_import_ok {s : Remit.State} {o n ts : Nat} {snap : Remit.ExportSnapshot}
    {s' : Remit.State} {r : Bool}
    (h : Remit.import_snapshot s o n snap ts = .ok (s', r)) :
    ∃ cfg, n = get_nonce s.nonces o ∧ snap.version = SNAPSHOT_VERSION ∧
    snap.checksum = Remit.compute_checksum snap.version snap.config ∧
    s.config = some cfg ∧ cfg.owner = o ∧
    snap.config.spending_percent + snap.config.savings_percent +
      snap.config.bills_percent + snap.config.insurance_percent = 100 ∧
    get_nonce s.nonces o + 1 < U64 ∧
    s' = ⟨some snap.config,
          some (snap.config.spending_percent, snap.config.savings_percent,
                snap.config.bills_percent, snap.config.insurance_percent),
          amSet s.nonces o (get_nonce s.nonces o + 1),
          append_audit s.audit ⟨"import", o, ts, true⟩⟩ ∧ r = true := by
  unfold Remit.import_snapshot at h
  repeat' split at h
  all_goals simp_all
  rename_i hn hv hck hcfg how hsum htot hinc
  obtain ⟨hlt, hm⟩ := increment_nonce_ok hinc
  subst hm
  exact ⟨(sum4_some hsum).symm, hlt, h.1.symm⟩

theorem remit_dist_ok {s : Remit.State} {f n ts : Nat} {total : Int} {tok : Bool}
    {s' : Remit.State} {r : Bool}
    (h : Remit.distribute_usdc s f n total tok ts = .ok (s', r)) :
    (r = false ∧ total ≤ 0 ∧
      s' = ⟨s.config, s.split, s.nonces,
            append_audit s.audit ⟨"distrib", f, ts, false⟩⟩) ∨
    (r = true ∧ 0 < total ∧ n = get_nonce s.nonces f ∧
      get_nonce s.nonces f + 1 < U64 ∧
      s' = ⟨s.config, s.split, amSet s.nonces f (get_nonce s.nonces f + 1),
            append_audit s.audit ⟨"distrib", f, ts, true⟩⟩) := by
  unfold Remit.distribute_usdc at h
  repeat' split at h
  all_goals simp_all
  rename_i hpos hn hcalc htok hinc
  obtain ⟨hlt, hm⟩ := increment_nonce_ok hinc
  subst hm
  exact ⟨hlt, h.1.symm⟩

theorem chkAddI_some {a b c : Int} (h : chkAddI a b = some c) :
    c = a + b ∧ I128MIN ≤ c ∧ c ≤ I128MAX := by
  unfold chkAddI at h
  split at h
  · rename_i hcond
    injection h with h2
    subst h2
    exact ⟨rfl, hcond.1, hcond.2⟩
  · exact Option.noConfusion h

theorem chkSubI_some {a b c : Int} (h : chkSubI a b = some c) :
    c = a - b ∧ I128MIN ≤ c ∧ c ≤ I128MAX := by
  unfold chkSubI at h
  split at h
  · rename_i hcond
    injection h with h2
    subst h2
    exact ⟨rfl, hcond.1, hcond.2⟩
  · exact Option.noConfusion h

theorem chkMulI_some {a b c : Int} (h : chkMulI a b = some c) :
    c = a * b ∧ I128MIN ≤ c ∧ c ≤ I128MAX := by
  unfold chkMulI at h
  split at h
  · rename_i hcond
    injection h with h2
    subst h2
    exact ⟨rfl, hcond.1, hcond.2⟩
  · exact Option.noConfusion h

theorem goals_create_ok {s : Goals.State} {o : Nat} {nm : String} {t : Int}
    {dt ts : Nat} {s' : Goals.State} {i : Nat}
    (h : Goals.create_goal s o nm t dt ts = .ok (s', i)) :
    0 < t ∧ s.next_id + 1 < U32 ∧ i = s.next_id + 1 ∧
    s' = ⟨amSet s.goals (s.next_id + 1) ⟨s.next_id + 1, o, nm, t, 0, dt, true⟩,
          s.next_id + 1, s.nonces,
          append_audit s.audit ⟨"create", o, ts, true⟩⟩ := by
  unfold Goals.create_goal at h
  repeat' split at h
  all_goals simp_all
  obtain ⟨hs, hi⟩ := h
  subst hi
  exact hs.symm

theorem goals_add_ok {s : Goals.State} {c gid : Nat} {amt : Int} {ts : Nat}
    {s' : Goals.State} {na : Int}
    (h : Goals.add_to_goal s c gid amt ts = .ok (s', na)) :
    ∃ g, 0 < amt ∧ amGet s.goals gid = some g ∧ g.owner = c ∧
    na = g.current_amount + amt ∧ I128MIN ≤ na ∧ na ≤ I128MAX ∧
    s' = ⟨amSet s.goals gid ⟨g.id, g.owner, g.name, g.target_amount, na, g.target_date, g.locked⟩,
          s.next_id, s.nonces, append_audit s.audit ⟨"add", c, ts, true⟩⟩ := by
  unfold Goals.add_to_goal at h
  repeat' split at h
  all_goals simp_all
  rename_i hchk
  obtain ⟨hs, hna⟩ := h
  subst hna
  obtain ⟨he, hlo, hhi⟩ := chkAddI_some hchk
  exact ⟨he, hlo, hhi, hs.symm⟩

theorem goals_withdraw_ok {s : Goals.State} {c gid : Nat} {amt : Int} {ts : Nat}
    {s' : Goals.State} {na : Int}
    (h : Goals.withdraw_from_goal s c gid amt ts = .ok (s', na)) :
    ∃ g, 0 < amt ∧ amGet s.goals gid = some g ∧ g.owner = c ∧ g.locked = false ∧
    amt ≤ g.current_amount ∧ na = g.current_amount - amt ∧
    s' = ⟨amSet s.goals gid ⟨g.id, g.owner, g.name, g.target_amount, na, g.target_date, g.locked⟩,
          s.next_id, s.nonces, append_audit s.audit ⟨"withdraw", c, ts, true⟩⟩ := by
  unfold Goals.withdraw_from_goal at h
  repeat' split at h
  all_goals simp_all
  rename_i hchk
  obtain ⟨hs, hna⟩ := h
  subst hna
  exact ⟨(chkSubI_some hchk).1, hs.symm⟩

theorem goals_lock_ok {s : Goals.State} {c gid ts : Nat} {s' : Goals.State} {r : Bool}
    (h : Goals.lock_goal s c gid ts = .ok (s', r)) :
    ∃ g, amGet s.goals gid = some g ∧ g.owner = c ∧ r = true ∧
    s' = ⟨amSet s.goals gid ⟨g.id, g.owner, g.name, g.target_amount, g.current_amount, g.target_date, true⟩,
          s.next_id, s.nonces, append_audit s.audit ⟨"lock", c, ts, true⟩⟩ := by
  unfold Goals.lock_goal at h
  repeat' split at h
  all_goals simp_all

theorem goals_unlock_ok {s : Goals.State} {c gid ts : Nat} {s' : Goals.State} {r : Bool}
    (h : Goals.unlock_goal s c gid ts = .ok (s', r)) :
    ∃ g, amGet s.goals gid = some g ∧ g.owner = c ∧ r = true ∧
    s' = ⟨amSet s.goals gid ⟨g.id, g.owner, g.name, g.target_amount, g.current_amount, g.target_date, false⟩,
          s.next_id, s.nonces, append_audit s.audit ⟨"unlock", c, ts, true⟩⟩ := by
  unfold Goals.unlock_goal at h
  repeat' split at h
  all_goals simp_all

theorem goals_import_ok {s : Goals.State} {c n : Nat} {snap : Goals.GoalsExportSnapshot}
    {ts : Nat} {s' : Goals.State} {r : Bool}
    (h : Goals.import_snapshot s c n snap ts = .ok (s', r)) :
    n = get_nonce s.nonces c ∧ snap.version = SNAPSHOT_VERSION ∧
    snap.checksum = Goals.compute_goals_checksum snap.version snap.next_id snap.goals ∧
    get_nonce s.nonces c + 1 < U64 ∧ r = true ∧
    s' = ⟨snap.goals.foldl (fun acc g => amSet acc g.id g) [], snap.next_id,
          amSet s.nonces c (get_nonce s.nonces c + 1),
          append_audit s.audit ⟨"import", c, ts, true⟩⟩ := by
  unfold Goals.import_snapshot at h
  repeat' split at h
  all_goals simp_all
  rename_i hinc
  obtain ⟨hlt, hm⟩ := increment_nonce_ok hinc
  subst hm
  exact ⟨hlt, h.1.symm⟩

theorem chkSub3 {T a b c r : Int}
    (h : ((chkSubI T a).bind fun x => (chkSubI x b).bind fun y => chkSubI y c)
      = some r) : r = T - a - b - c := by
  cases hx : chkSubI T a with
  | none => rw [hx, Option.none_bind] at h; exact Option.noConfusion h
  | some x =>
    rw [hx, Option.some_bind] at h
    cases hy : chkSubI x b with
    | none => rw [hy, Option.none_bind] at h; exact Option.noConfusion h
    | some y =>
      rw [hy, Option.some_bind] at h
      have e1 := (chkSubI_some hx).1
      have e2 := (chkSubI_some hy).1
      have e3 := (chkSubI_some h).1
      omega

theorem calc_ok {s : Remit.State} {T : Int} {out : Int × Int × Int × Int}
    (h : Remit.calculate_split s T = .ok out) :
    0 < T ∧
    out.1 = Int.tdiv (T * (Remit.get_split s).1) 100 ∧
    out.2.1 = Int.tdiv (T * (Remit.get_split s).2.1) 100 ∧
    out.2.2.1 = Int.tdiv (T * (Remit.get_split s).2.2.1) 100 ∧
    out.2.2.2 = T - out.1 - out.2.1 - out.2.2.1 := by
  unfold Remit.calculate_split at h
  repeat' first
  | rw [Option.some_bind] at h
  | rw [Option.none_bind] at h
  | split at h
  all_goals simp_all
  rename_i hT hm0 hm1 hm2 hsub
  obtain ⟨a0, ha0, hsp0⟩ := hm0
  obtain ⟨a1, ha1, hsp1⟩ := hm1
  obtain ⟨a2, ha2, hsp2⟩ := hm2
  subst h
  have e0 := (chkMulI_some ha0).1
  have e1 := (chkMulI_some ha1).1
  have e2 := (chkMulI_some ha2).1
  have e3 := chkSub3 hsub
  subst e0 e1 e2
  exact ⟨hsp0.symm, hsp1.symm, hsp2.symm, e3⟩

/-- Claim C3: for every stored percentage configuration summing to 100 and
every total T at least 1 on which `calculate_split` returns, the four
returned amounts sum exactly to T; the first three are the floors of
T times the percentage over 100 and the fourth is T minus their sum. -/
theorem c3_split_amounts_sum_to_total {s : Remit.State} {s0 s1 s2 s3 : Nat}
    {T : Int} {out : Int × Int × Int × Int}
    (hsp : Remit.get_split s = (s0, s1, s2, s3))
    (_hsum : s0 + s1 + s2 + s3 = 100)
    (hT : 1 ≤ T)
    (h : Remit.calculate_split s T = .ok out) :
    out.1 = Int.ediv (T * s0) 100 ∧
    out.2.1 = Int.ediv (T * s1) 100 ∧
    out.2.2.1 = Int.ediv (T * s2) 100 ∧
    out.2.2.2 = T - out.1 - out.2.1 - out.2.2.1 ∧
    out.1 + out.2.1 + out.2.2.1 + out.2.2.2 = T := by
  obtain ⟨hpos, h1, h2, h3, h4⟩ := calc_ok h
  rw [hsp] at h1 h2 h3
  have n0 : (0 : Int) ≤ T * s0 := by positivity
  have n1 : (0 : Int) ≤ T * s1 := by positivity
  have n2 : (0 : Int) ≤ T * s2 := by positivity
  have d100 : (0 : Int) ≤ 100 := by norm_num
  rw [Int.tdiv_eq_ediv n0 d100] at h1
  rw [Int.tdiv_eq_ediv n1 d100] at h2
  rw [Int.tdiv_eq_ediv n2 d100] at h3
  refine ⟨h1, h2, h3, h4, ?_⟩
  rw [h4]
  ring

/-- Witness for C3 at the split (40, 30, 20, 10) and T = 999
(the spec's worked scenario). -/
theorem c3_witness :
    Remit.calculate_split ⟨none, some (40, 30, 20, 10), [], []⟩ 999 =
      .ok (399, 299, 199, 102) ∧
    (399 : Int) = Int.ediv (999 * 40) 100 ∧
    (299 : Int) = Int.ediv (999 * 30) 100 ∧
    (199 : Int) = Int.ediv (999 * 20) 100 ∧
    (399 : Int) + 299 + 199 + 102 = 999 := by
  have hc : Remit.calculate_split ⟨none, some (40, 30, 20, 10), [], []⟩ 999 =
      .ok (399, 299, 199, 102) := by rfl
  have hsp : Remit.get_split ⟨none, some (40, 30, 20, 10), [], []⟩ =
      (40, 30, 20, 10) := by rfl
  have := c3_split_amounts_sum_to_total hsp (by norm_num) (by norm_num) hc
  exact ⟨hc, this.1, this.2.1, this.2.2.1, by norm_num⟩

theorem calc_defaults {s : Remit.State} {T : Int}
    (hsplit : s.split = none) (hT : 1 ≤ T) (hmax : T * 50 ≤ I128MAX) :
    Remit.calculate_split s T =
      .ok (Int.tdiv (T * 50) 100, Int.tdiv (T * 30) 100, Int.tdiv (T * 15) 100,
           T - Int.tdiv (T * 50) 100 - Int.tdiv (T * 30) 100
             - Int.tdiv (T * 15) 100) := by
  have hT0 : (0 : Int) < T := hT
  have hmin0 : I128MIN ≤ (0 : Int) := by unfold I128MIN; norm_num
  have h50 : (0 : Int) ≤ T * 50 := by positivity
  have h30 : (0 : Int) ≤ T * 30 := by positivity
  have h15 : (0 : Int) ≤ T * 15 := by positivity
  have hm30 : T * 30 ≤ T * 50 := by nlinarith
  have hm15 : T * 15 ≤ T * 50 := by nlinarith
  have hTmax : T ≤ I128MAX := by nlinarith
  have e50 := Int.ediv_add_emod (T * 50) 100
  have r50a := Int.emod_nonneg (T * 50) (by norm_num : (100 : Int) ≠ 0)
  have e30 := Int.ediv_add_emod (T * 30) 100
  have r30a := Int.emod_nonneg (T * 30) (by norm_num : (100 : Int) ≠ 0)
  have e15 := Int.ediv_add_emod (T * 15) 100
  have r15a := Int.emod_nonneg (T * 15) (by norm_num : (100 : Int) ≠ 0)
  have d100 : (0 : Int) ≤ 100 := by norm_num
  have t50 : Int.tdiv (T * 50) 100 = (T * 50) / 100 := Int.tdiv_eq_ediv h50 d100
  have t30 : Int.tdiv (T * 30) 100 = (T * 30) / 100 := Int.tdiv_eq_ediv h30 d100
  have t15 : Int.tdiv (T * 15) 100 = (T * 15) / 100 := Int.tdiv_eq_ediv h15 d100
  have sp0 : (0 : Int) ≤ (T * 50) / 100 := Int.ediv_nonneg h50 d100
  have sv0 : (0 : Int) ≤ (T * 30) / 100 := Int.ediv_nonneg h30 d100
  have bl0 : (0 : Int) ≤ (T * 15) / 100 := Int.ediv_nonneg h15 d100
  have hsum : (T * 50) / 100 + (T * 30) / 100 + (T * 15) / 100 ≤ T := by linarith
  have hgs : Remit.get_split s = (50, 30, 15, 5) := by
    unfold Remit.get_split
    rw [hsplit]
    rfl
  have m50 : chkMulI T ((50 : Nat) : Int) = some (T * 50) := by
    unfold chkMulI
    rw [if_pos]
    · norm_num
    · constructor
      · push_cast; linarith
      · push_cast; linarith
  have m30 : chkMulI T ((30 : Nat) : Int) = some (T * 30) := by
    unfold chkMulI
    rw [if_pos]
    · norm_num
    · constructor
      · push_cast; linarith
      · push_cast; linarith
  have m15 : chkMulI T ((15 : Nat) : Int) = some (T * 15) := by
    unfold chkMulI
    rw [if_pos]
    · norm_num
    · constructor
      · push_cast; linarith
      · push_cast; linarith
  have sub1 : chkSubI T (Int.tdiv (T * 50) 100) = some (T - Int.tdiv (T * 50) 100) := by
    unfold chkSubI
    rw [if_pos]
    exact ⟨by rw [t50]; linarith, by rw [t50]; linarith⟩
  have sub2 : chkSubI (T - Int.tdiv (T * 50) 100) (Int.tdiv (T * 30) 100) =
      some (T - Int.tdiv (T * 50) 100 - Int.tdiv (T * 30) 100) := by
    unfold chkSubI
    rw [if_pos]
    exact ⟨by rw [t50, t30]; linarith, by rw [t50, t30]; linarith⟩
  have sub3 : chkSubI (T - Int.tdiv (T * 50) 100 - Int.tdiv (T * 30) 100)
      (Int.tdiv (T * 15) 100) =
      some (T - Int.tdiv (T * 50) 100 - Int.tdiv (T * 30) 100
        - Int.tdiv (T * 15) 100) := by
    unfold chkSubI
    rw [if_pos]
    exact ⟨by rw [t50, t30, t15]; linarith, by rw [t50, t30, t15]; linarith⟩
  have hg1 : (Remit.get_split s).1 = 50 := by rw [hgs]
  have hg2 : (Remit.get_split s).2.1 = 30 := by rw [hgs]
  have hg3 : (Remit.get_split s).2.2.1 = 15 := by rw [hgs]
  unfold Remit.calculate_split
  rw [if_neg (by omega : ¬ T ≤ 0), hg1, hg2, hg3]
  rw [m50, m30, m15]
  simp only [Option.map_some']
  rw [sub1, Option.some_bind, sub2, Option.some_bind, sub3]

/-- Claim C10: with no split configuration ever initialized, `get_split`
returns the default percentages (50, 30, 15, 5), and `calculate_split`
computes amounts from those defaults for any T at least 1 on which the
checked arithmetic succeeds, rather than failing with a not-initialized
error. -/
theorem c10_uninitialized_defaults :
    (∀ s : Remit.State, s.split = none → Remit.get_split s = (50, 30, 15, 5)) ∧
    (∀ (s : Remit.State) (T : Int), s.split = none → 1 ≤ T → T * 50 ≤ I128MAX →
      Remit.calculate_split s T =
        .ok (Int.tdiv (T * 50) 100, Int.tdiv (T * 30) 100, Int.tdiv (T * 15) 100,
             T - Int.tdiv (T * 50) 100 - Int.tdiv (T * 30) 100
               - Int.tdiv (T * 15) 100)) :=
  ⟨fun s h => by unfold Remit.get_split; rw [h]; rfl,
   fun _s _T h1 h2 h3 => calc_defaults h1 h2 h3⟩

/-- Witness for C10 on the fresh contract state and T = 1000. -/
theorem c10_witness :
    Remit.get_split Remit.stInit = (50, 30, 15, 5) ∧
    Remit.calculate_split Remit.stInit 1000 = .ok (500, 300, 150, 50) := by
  have h1 := c10_uninitialized_defaults.1 Remit.stInit (by rfl)
  have h2 := c10_uninitialized_defaults.2 Remit.stInit 1000 (by rfl) (by norm_num)
    (by unfold I128MAX; norm_num)
  refine ⟨h1, ?_⟩
  rw [h2]
  rfl

/-- Claim C9 (amended): `create_goal` stores the new goal with
`current_amount = 0` and `locked = true`; withdrawing any positive amount
from a locked goal by its owner fails with the locked-goal error; and
`unlock_goal` by the owner clears the lock.  (A non-positive requested
amount instead fails the amount-positivity check, which precedes the lock
check.) -/
theorem c9_fresh_goal_locked :
    (∀ (s : Goals.State) (o : Nat) (nm : String) (t : Int) (dt ts : Nat)
       (s' : Goals.State) (i : Nat),
       Goals.create_goal s o nm t dt ts = .ok (s', i) →
       amGet s'.goals i = some ⟨i, o, nm, t, 0, dt, true⟩) ∧
    (∀ (s : Goals.State) (c gid : Nat) (g : Goals.SavingsGoal) (amt : Int) (ts : Nat),
       amGet s.goals gid = some g → g.owner = c → g.locked = true → 0 < amt →
       Goals.withdraw_from_goal s c gid amt ts = .error .lockedGoal) ∧
    (∀ (s : Goals.State) (c gid ts : Nat) (s' : Goals.State) (r : Bool),
       Goals.unlock_goal s c gid ts = .ok (s', r) →
       ∀ g, amGet s.goals gid = some g →
         amGet s'.goals gid =
           some ⟨g.id, g.owner, g.name, g.target_amount, g.current_amount,
                 g.target_date, false⟩) := by
  refine ⟨?_, ?_, ?_⟩
  · intro s o nm t dt ts s' i h
    obtain ⟨ht, hlt, hi, hs⟩ := goals_create_ok h
    subst hi hs
    rw [amGet_amSet]
    simp
  · intro s c gid g amt ts hget how hlk hamt
    unfold Goals.withdraw_from_goal
    rw [if_neg (by omega : ¬ amt ≤ 0)]
    simp only [hget]
    rw [if_neg (by simp [how] : ¬ g.owner ≠ c)]
    rw [if_pos hlk]
  · intro s c gid ts s' r h g hget
    obtain ⟨g', hget', how', hr, hs⟩ := goals_unlock_ok h
    rw [hget] at hget'
    injection hget' with hgg
    subst hgg hs
    rw [amGet_amSet]
    simp

/-- Witness for C9: a freshly created goal, owner-withdrawal of 5 rejected
as locked, then unlocked. -/
theorem c9_witness :
    Goals.create_goal Goals.stInit 7 "edu" 100 0 0 =
      .ok (⟨[(1, ⟨1, 7, "edu", 100, 0, 0, true⟩)], 1, [],
            [⟨"create", 7, 0, true⟩]⟩, 1) ∧
    amGet (⟨[(1, ⟨1, 7, "edu", 100, 0, 0, true⟩)], 1, [],
            [⟨"create", 7, 0, true⟩]⟩ : Goals.State).goals 1 =
      some ⟨1, 7, "edu", 100, 0, 0, true⟩ ∧
    Goals.withdraw_from_goal ⟨[(1, ⟨1, 7, "edu", 100, 0, 0, true⟩)], 1, [],
      [⟨"create", 7, 0, true⟩]⟩ 7 1 5 1 = .error .lockedGoal := by
  have hc : Goals.create_goal Goals.stInit 7 "edu" 100 0 0 =
      .ok (⟨[(1, ⟨1, 7, "edu", 100, 0, 0, true⟩)], 1, [],
            [⟨"create", 7, 0, true⟩]⟩, 1) := by rfl
  have h1 := c9_fresh_goal_locked.1 Goals.stInit 7 "edu" 100 0 0 _ _ hc
  have h2 := c9_fresh_goal_locked.2.1
    ⟨[(1, ⟨1, 7, "edu", 100, 0, 0, true⟩)], 1, [], [⟨"create", 7, 0, true⟩]⟩
    7 1 ⟨1, 7, "edu", 100, 0, 0, true⟩ 5 1 (by rfl) (by rfl) (by rfl)
    (by norm_num)
  exact ⟨hc, h1, h2⟩

/-- Counterexample to claim C9 as stated: on a freshly created (locked)
goal, an owner withdrawal request of amount 0 fails with the
amount-must-be-positive error, not the locked-goal error, because the
amount check precedes the lock check. -/
theorem c9_counterexample :
    Goals.withdraw_from_goal ⟨[(1, ⟨1, 7, "edu", 100, 0, 0, true⟩)], 1, [],
      [⟨"create", 7, 0, true⟩]⟩ 7 1 0 1 = .error .nonPositiveAmount ∧
    Err.nonPositiveAmount ≠ Err.lockedGoal := by
  exact ⟨by rfl, by decide⟩

/-- Claim C8: the percentage-sum validation of `initialize_split`,
`update_split` and the snapshot restore accepts four u32 percentages only
when their true mathematical sum is 100 (the checked addition never wraps:
it either returns the mathematical sum or aborts the call with the
overflow error). -/
theorem c8_checked_percent_sum :
    (∀ a b c d t : Nat, sum4 a b c d = some t → t = a + b + c + d) ∧
    (∀ a b c d : Nat, a + b + c + d = 100 → sum4 a b c d = some 100) ∧
    (∀ (s : Remit.State) (o n a b c d ts : Nat) (x : Remit.State × Bool),
       Remit.initialize_split s o n a b c d ts = .ok x → a + b + c + d = 100) ∧
    (∀ (s : Remit.State) (o n a b c d ts : Nat) (x : Remit.State × Bool),
       Remit.update_split s o n a b c d ts = .ok x → a + b + c + d = 100) ∧
    (∀ (s : Remit.State) (o n ts : Nat) (snap : Remit.ExportSnapshot)
       (x : Remit.State × Bool),
       Remit.import_snapshot s o n snap ts = .ok x →
       snap.config.spending_percent + snap.config.savings_percent +
         snap.config.bills_percent + snap.config.insurance_percent = 100) ∧
    (∀ (s : Remit.State) (o a b c d ts : Nat),
       s.config = none → sum4 a b c d = none →
       Remit.initialize_split s o (get_nonce s.nonces o) a b c d ts =
         .error .overflow) := by
  refine ⟨fun a b c d t h => sum4_some h, fun a b c d h => sum4_of_eq_100 h,
    ?_, ?_, ?_, ?_⟩
  · intro s o n a b c d ts x h
    obtain ⟨s', r⟩ := x
    exact (remit_init_ok h).2.2.1
  · intro s o n a b c d ts x h
    obtain ⟨s', r⟩ := x
    obtain ⟨cfg, hx⟩ := remit_update_ok h
    exact hx.2.2.2.1
  · intro s o n ts snap x h
    obtain ⟨s', r⟩ := x
    obtain ⟨cfg, hx⟩ := remit_import_ok h
    exact hx.2.2.2.2.2.1
  · intro s o a b c d ts hcfg hsum
    unfold Remit.initialize_split
    rw [if_neg (by simp : ¬ get_nonce s.nonces o ≠ get_nonce s.nonces o)]
    simp only [hcfg, hsum]

/-- Witness for C8: a four-tuple whose u32 sum would wrap to a small value
is rejected with the overflow error by `initialize_split`. -/
theorem c8_witness :
    sum4 4294967295 101 0 0 = none ∧
    (4294967295 + 101 + 0 + 0 : Nat) ≠ 100 ∧
    Remit.initialize_split Remit.stInit 7 0 4294967295 101 0 0 0 =
      .error .overflow := by
  refine ⟨by rfl, by norm_num, ?_⟩
  exact c8_checked_percent_sum.2.2.2.2.2 Remit.stInit 7 4294967295 101 0 0 0
    (by rfl) (by rfl)

/-- Claim C1 (amended): every principal's nonce starts at 0; each
successful nonce-guarded call (initialize_split, update_split,
distribute_usdc returning true, snapshot restore in either contract)
increments exactly the caller's nonce by 1; the savings-goal operations
create_goal, add_to_goal, withdraw_from_goal, lock_goal and unlock_goal
take no nonce and never change any nonce; distribute_usdc returning false
leaves all nonces unchanged (and a failed call aborts with no state
change). -/
theorem c1_nonce_discipline :
    (∀ p, get_nonce Remit.stInit.nonces p = 0) ∧
    (∀ p, get_nonce Goals.stInit.nonces p = 0) ∧
    (∀ (s : Remit.State) (c n ts : Nat) (op : Remit.Op) (s' : Remit.State),
       Remit.run s c n ts op = .ok (s', true) →
       get_nonce s'.nonces c = get_nonce s.nonces c + 1 ∧
       ∀ q, q ≠ c → get_nonce s'.nonces q = get_nonce s.nonces q) ∧
    (∀ (s : Remit.State) (c n ts : Nat) (op : Remit.Op) (s' : Remit.State),
       Remit.run s c n ts op = .ok (s', false) → s'.nonces = s.nonces) ∧
    (∀ (s : Goals.State) (o : Nat) (nm : String) (t : Int) (dt ts : Nat)
       (s' : Goals.State) (i : Nat),
       Goals.create_goal s o nm t dt ts = .ok (s', i) → s'.nonces = s.nonces) ∧
    (∀ (s : Goals.State) (c gid : Nat) (amt : Int) (ts : Nat)
       (s' : Goals.State) (na : Int),
       Goals.add_to_goal s c gid amt ts = .ok (s', na) → s'.nonces = s.nonces) ∧
    (∀ (s : Goals.State) (c gid : Nat) (amt : Int) (ts : Nat)
       (s' : Goals.State) (na : Int),
       Goals.withdraw_from_goal s c gid amt ts = .ok (s', na) →
       s'.nonces = s.nonces) ∧
    (∀ (s : Goals.State) (c gid ts : Nat) (s' : Goals.State) (r : Bool),
       Goals.lock_goal s c gid ts = .ok (s', r) → s'.nonces = s.nonces) ∧
    (∀ (s : Goals.State) (c gid ts : Nat) (s' : Goals.State) (r : Bool),
       Goals.unlock_goal s c gid ts = .ok (s', r) → s'.nonces = s.nonces) ∧
    (∀ (s : Goals.State) (c n : Nat) (snap : Goals.GoalsExportSnapshot)
       (ts : Nat) (s' : Goals.State) (r : Bool),
       Goals.import_snapshot s c n snap ts = .ok (s', r) →
       get_nonce s'.nonces c = get_nonce s.nonces c + 1 ∧
       ∀ q, q ≠ c → get_nonce s'.nonces q = get_nonce s.nonces q) := by
  refine ⟨fun p => rfl, fun p => rfl, ?_, ?_, ?_, ?_, ?_, ?_, ?_, ?_⟩
  · intro s c n ts op s' h
    cases op with
    | initS a b c2 d =>
      simp only [Remit.run] at h
      obtain ⟨hn, hcfg, hsum, hlt, hs, hr⟩ := remit_init_ok h
      subst hs
      refine ⟨by rw [get_nonce_amSet]; simp, fun q hq => ?_⟩
      rw [get_nonce_amSet, if_neg hq]
    | updS a b c2 d =>
      simp only [Remit.run] at h
      obtain ⟨cfg, hn, hcfg, how, hsum, hlt, hs, hr⟩ := remit_update_ok h
      subst hs
      refine ⟨by rw [get_nonce_amSet]; simp, fun q hq => ?_⟩
      rw [get_nonce_amSet, if_neg hq]
    | dist t tok =>
      simp only [Remit.run] at h
      rcases remit_dist_ok h with ⟨hr, _⟩ | ⟨hr, hpos, hn, hlt, hs⟩
      · exact Bool.noConfusion hr
      · subst hs
        refine ⟨by rw [get_nonce_amSet]; simp, fun q hq => ?_⟩
        rw [get_nonce_amSet, if_neg hq]
    | imp snap =>
      simp only [Remit.run] at h
      obtain ⟨cfg, hn, hv, hck, hcfg, how, hsum, hlt, hs, hr⟩ := remit_import_ok h
      subst hs
      refine ⟨by rw [get_nonce_amSet]; simp, fun q hq => ?_⟩
      rw [get_nonce_amSet, if_neg hq]
  · intro s c n ts op s' h
    cases op with
    | initS a b c2 d =>
      simp only [Remit.run] at h
      exact Bool.noConfusion (remit_init_ok h).2.2.2.2.2
    | updS a b c2 d =>
      simp only [Remit.run] at h
      obtain ⟨cfg, hx⟩ := remit_update_ok h
      exact Bool.noConfusion hx.2.2.2.2.2.2
    | dist t tok =>
      simp only [Remit.run] at h
      rcases remit_dist_ok h with ⟨hr, hpos, hs⟩ | ⟨hr, _⟩
      · subst hs; rfl
      · exact Bool.noConfusion hr
    | imp snap =>
      simp only [Remit.run] at h
      obtain ⟨cfg, hx⟩ := remit_import_ok h
      exact Bool.noConfusion hx.2.2.2.2.2.2.2.2
  · intro s o nm t dt ts s' i h
    obtain ⟨_, _, _, hs⟩ := goals_create_ok h
    subst hs
    rfl
  · intro s c gid amt ts s' na h
    obtain ⟨g, hx⟩ := goals_add_ok h
    rw [hx.2.2.2.2.2.2]
  · intro s c gid amt ts s' na h
    obtain ⟨g, hx⟩ := goals_withdraw_ok h
    rw [hx.2.2.2.2.2.2]
  · intro s c gid ts s' r h
    obtain ⟨g, hx⟩ := goals_lock_ok h
    rw [hx.2.2.2]
  · intro s c gid ts s' r h
    obtain ⟨g, hx⟩ := goals_unlock_ok h
    rw [hx.2.2.2]
  · intro s c n snap ts s' r h
    obtain ⟨hn, hv, hck, hlt, hr, hs⟩ := goals_import_ok h
    subst hs
    refine ⟨by rw [get_nonce_amSet]; simp, fun q hq => ?_⟩
    rw [get_nonce_amSet, if_neg hq]

/-- Witness for C1 (amended): a successful initialize_split moves the
caller's nonce from 0 to 1, and a successful create_goal leaves the
creating principal's nonce at 0. -/
theorem c1_witness :
    get_nonce Remit.stInit.nonces 7 = 0 ∧
    get_nonce (⟨some ⟨7, 50, 30, 15, 5, true⟩, some (50, 30, 15, 5), [(7, 1)],
      [⟨"init", 7, 0, true⟩]⟩ : Remit.State).nonces 7 =
      get_nonce Remit.stInit.nonces 7 + 1 ∧
    (⟨[(1, ⟨1, 7, "edu", 100, 0, 0, true⟩)], 1, [],
      [⟨"create", 7, 0, true⟩]⟩ : Goals.State).nonces = Goals.stInit.nonces := by
  refine ⟨c1_nonce_discipline.1 7, ?_, ?_⟩
  · exact (c1_nonce_discipline.2.2.1 Remit.stInit 7 0 0 (.initS 50 30 15 5) _
      (by rfl)).1
  · exact c1_nonce_discipline.2.2.2.2.1 Goals.stInit 7 "edu" 100 0 0 _ 1 (by rfl)

/-- Counterexample to claim C1 as stated: create_goal is a state-changing
call, yet after a successful create_goal by principal 7 the nonce of 7 is
still 0, not one more than before the call. -/
theorem c1_counterexample :
    Goals.create_goal Goals.stInit 7 "edu" 100 0 0 =
      .ok (⟨[(1, ⟨1, 7, "edu", 100, 0, 0, true⟩)], 1, [],
            [⟨"create", 7, 0, true⟩]⟩, 1) ∧
    get_nonce (⟨[(1, ⟨1, 7, "edu", 100, 0, 0, true⟩)], 1, [],
      [⟨"create", 7, 0, true⟩]⟩ : Goals.State).nonces 7 = 0 ∧
    get_nonce (⟨[(1, ⟨1, 7, "edu", 100, 0, 0, true⟩)], 1, [],
      [⟨"create", 7, 0, true⟩]⟩ : Goals.State).nonces 7 ≠
      get_nonce Goals.stInit.nonces 7 + 1 := by
  exact ⟨by rfl, by rfl, by decide⟩

/-- Which remittance-split calls reach the nonce check: all of them except
`distribute_usdc` with a non-positive total, which returns false before
checking the nonce. -/
def Remit.reachesNonceCheck : Remit.Op → Prop
  | .dist t _ => 0 < t
  | _ => True

theorem remit_init_badnonce {s : Remit.State} {o n a b c d ts : Nat}
    (h : n ≠ get_nonce s.nonces o) :
    Remit.initialize_split s o n a b c d ts = .error .invalidNonce := by
  unfold Remit.initialize_split
  rw [if_pos h]

theorem remit_update_badnonce {s : Remit.State} {o n a b c d ts : Nat}
    (h : n ≠ get_nonce s.nonces o) :
    Remit.update_split s o n a b c d ts = .error .invalidNonce := by
  unfold Remit.update_split
  rw [if_pos h]

theorem remit_import_badnonce {s : Remit.State} {o n ts : Nat}
    {snap : Remit.ExportSnapshot} (h : n ≠ get_nonce s.nonces o) :
    Remit.import_snapshot s o n snap ts = .error .invalidNonce := by
  unfold Remit.import_snapshot
  rw [if_pos h]

theorem remit_dist_badnonce {s : Remit.State} {f n ts : Nat} {total : Int}
    {tok : Bool} (hpos : 0 < total) (h : n ≠ get_nonce s.nonces f) :
    Remit.distribute_usdc s f n total tok ts = .error .invalidNonce := by
  unfold Remit.distribute_usdc
  rw [if_neg (by omega : ¬ total ≤ 0), if_pos h]

theorem goals_import_badnonce {s : Goals.State} {c n ts : Nat}
    {snap : Goals.GoalsExportSnapshot} (h : n ≠ get_nonce s.nonces c) :
    Goals.import_snapshot s c n snap ts = .error .invalidNonce := by
  unfold Goals.import_snapshot
  rw [if_pos h]

theorem remit_run_ok_true_nonce {s : Remit.State} {c n ts : Nat}
    {op : Remit.Op} {s' : Remit.State}
    (h : Remit.run s c n ts op = .ok (s', true)) :
    n = get_nonce s.nonces c ∧ get_nonce s'.nonces c = n + 1 := by
  cases op with
  | initS a b c2 d =>
    simp only [Remit.run] at h
    obtain ⟨hn, _, _, _, hs, _⟩ := remit_init_ok h
    subst hs
    exact ⟨hn, by rw [get_nonce_amSet, if_pos rfl, hn]⟩
  | updS a b c2 d =>
    simp only [Remit.run] at h
    obtain ⟨cfg, hn, _, _, _, _, hs, _⟩ := remit_update_ok h
    subst hs
    exact ⟨hn, by rw [get_nonce_amSet, if_pos rfl, hn]⟩
  | dist t tok =>
    simp only [Remit.run] at h
    rcases remit_dist_ok h with ⟨hr, _⟩ | ⟨_, _, hn, _, hs⟩
    · exact Bool.noConfusion hr
    · subst hs
      exact ⟨hn, by rw [get_nonce_amSet, if_pos rfl, hn]⟩
  | imp snap =>
    simp only [Remit.run] at h
    obtain ⟨cfg, hn, _, _, _, _, _, _, hs, _⟩ := remit_import_ok h
    subst hs
    exact ⟨hn, by rw [get_nonce_amSet, if_pos rfl, hn]⟩

/-- Claim C2 (amended): after a mutating call by principal c that succeeded
with nonce n (and therefore consumed it), any second nonce-guarded call by
c that supplies the same n fails with the invalid-nonce (replay) error.
When the first call failed, the nonce was not consumed, so the second call
is not rejected as a replay. -/
theorem c2_replay_after_success :
    (∀ (s : Remit.State) (c n ts : Nat) (op : Remit.Op) (s' : Remit.State),
       Remit.run s c n ts op = .ok (s', true) →
       ∀ (ts2 : Nat) (op2 : Remit.Op), Remit.reachesNonceCheck op2 →
         Remit.run s' c n ts2 op2 = .error .invalidNonce) ∧
    (∀ (s : Goals.State) (c n : Nat) (snap : Goals.GoalsExportSnapshot)
       (ts : Nat) (s' : Goals.State) (r : Bool),
       Goals.import_snapshot s c n snap ts = .ok (s', r) →
       ∀ (snap2 : Goals.GoalsExportSnapshot) (ts2 : Nat),
         Goals.import_snapshot s' c n snap2 ts2 = .error .invalidNonce) := by
  constructor
  · intro s c n ts op s' h ts2 op2 hreach
    obtain ⟨hn, hn'⟩ := remit_run_ok_true_nonce h
    have hne : n ≠ get_nonce s'.nonces c := by omega
    cases op2 with
    | initS a b c2 d => exact remit_init_badnonce hne
    | updS a b c2 d => exact remit_update_badnonce hne
    | dist t tok => exact remit_dist_badnonce hreach hne
    | imp snap => exact remit_import_badnonce hne
  · intro s c n snap ts s' r h snap2 ts2
    obtain ⟨hn, _, _, _, _, hs⟩ := goals_import_ok h
    subst hs
    apply goals_import_badnonce
    rw [get_nonce_amSet, if_pos rfl]
    omega

/-- Witness for C2 (amended): replaying nonce 0 against the state produced
by a successful initialize_split with nonce 0 is rejected. -/
theorem c2_witness :
    Remit.run (⟨some ⟨7, 50, 30, 15, 5, true⟩, some (50, 30, 15, 5), [(7, 1)],
      [⟨"init", 7, 0, true⟩]⟩ : Remit.State) 7 0 1 (.initS 50 30 15 5) =
      .error .invalidNonce :=
  c2_replay_after_success.1 Remit.stInit 7 0 0 (.initS 50 30 15 5) _ (by rfl)
    1 (.initS 50 30 15 5) trivial

/-- Counterexample to claim C2 as stated: a first initialize_split with
nonce 0 fails (percentages sum to 40); the state is unchanged by the
aborted call, and a second call supplying the same nonce 0 is not rejected
as a replay - it succeeds. -/
theorem c2_counterexample :
    Remit.initialize_split Remit.stInit 7 0 10 10 10 10 0 =
      .error .percentSumNot100 ∧
    Remit.initialize_split Remit.stInit 7 0 50 30 15 5 1 =
      .ok (⟨some ⟨7, 50, 30, 15, 5, true⟩, some (50, 30, 15, 5), [(7, 1)],
            [⟨"init", 7, 1, true⟩]⟩, true) ∧
    Remit.initialize_split Remit.stInit 7 0 50 30 15 5 1 ≠
      .error .invalidNonce := by
  refine ⟨by rfl, by rfl, ?_⟩
  intro hbad
  rw [show Remit.initialize_split Remit.stInit 7 0 50 30 15 5 1 =
    .ok (⟨some ⟨7, 50, 30, 15, 5, true⟩, some (50, 30, 15, 5), [(7, 1)],
         [⟨"init", 7, 1, true⟩]⟩, true) from by rfl] at hbad
  exact Except.noConfusion hbad

theorem append_audit_le {l : List AuditEntry} {e : AuditEntry}
    (h : l.length ≤ 100) : (append_audit l e).length ≤ 100 := by
  unfold append_audit MAX_AUDIT_ENTRIES
  split
  · simp only [List.length_append, List.length_drop, List.length_cons,
      List.length_nil]
    omega
  · simp only [List.length_append, List.length_cons, List.length_nil]
    rename_i hlt
    omega

theorem append_audit_eq (l : List AuditEntry) (e : AuditEntry) :
    append_audit l e =
      (if MAX_AUDIT_ENTRIES ≤ l.length then l.drop 1 else l) ++ [e] := rfl

theorem foldl_append_audit (es : List AuditEntry) :
    es.foldl append_audit [] = es.drop (es.length - 100) ∧
    (es.foldl append_audit []).length = min es.length 100 := by
  induction es using List.reverseRecOn with
  | nil => simp
  | append_singleton es e ih =>
    obtain ⟨ihd, ihl⟩ := ih
    rw [List.foldl_append]
    simp only [List.foldl_cons, List.foldl_nil]
    have hlenapp : (es ++ [e]).length = es.length + 1 := by
      simp only [List.length_append, List.length_cons, List.length_nil]
    by_cases hlen : es.length < 100
    · have hdz : es.length - 100 = 0 := by omega
      rw [hdz, List.drop_zero] at ihd
      have hnotcap : ¬ (MAX_AUDIT_ENTRIES ≤ (es.foldl append_audit []).length) := by
        unfold MAX_AUDIT_ENTRIES
        omega
      rw [append_audit_eq, if_neg hnotcap, ihd]
      constructor
      · have hz : (es ++ [e]).length - 100 = 0 := by omega
        rw [hz, List.drop_zero]
      · rw [hlenapp]
        omega
    · have hcap : MAX_AUDIT_ENTRIES ≤ (es.foldl append_audit []).length := by
        unfold MAX_AUDIT_ENTRIES
        omega
      rw [append_audit_eq, if_pos hcap, ihd]
      constructor
      · rw [List.drop_drop, hlenapp]
        rw [List.drop_append_of_le_length (by omega : es.length + 1 - 100 ≤ es.length)]
        have harith : es.length - 100 + 1 = es.length + 1 - 100 := by omega
        rw [harith]
      · simp only [List.length_append, List.length_drop, List.length_cons,
          List.length_nil, hlenapp]
        omega

theorem get_audit_log_all {log : List AuditEntry} (h : log.length ≤ 100) :
    get_audit_log log 0 200 = log := by
  unfold get_audit_log
  split
  · rename_i hz
    have : log.length = 0 := by omega
    exact (List.eq_nil_of_length_eq_zero this).symm
  · rw [List.drop_zero]
    have hm : min MAX_AUDIT_ENTRIES 200 = 100 := by
      unfold MAX_AUDIT_ENTRIES
      omega
    rw [hm]
    have : min (0 + 100) log.length - 0 = log.length := by omega
    rw [this, List.take_length]

theorem except_map_fst_ok {α β : Type} {x : Except Err (α × β)} {a : α}
    (h : x.map Prod.fst = .ok a) : ∃ b, x = .ok (a, b) := by
  cases x with
  | error e => simp [Except.map] at h
  | ok p =>
    obtain ⟨p1, p2⟩ := p
    simp [Except.map] at h
    exact ⟨p2, by rw [h]⟩

theorem remit_run_audit {s : Remit.State} {c n ts : Nat} {op : Remit.Op}
    {s' : Remit.State} {b : Bool} (h : Remit.run s c n ts op = .ok (s', b)) :
    ∃ e, s'.audit = append_audit s.audit e := by
  cases op with
  | initS a b2 c2 d =>
    simp only [Remit.run] at h
    obtain ⟨_, _, _, _, hs, _⟩ := remit_init_ok h
    subst hs
    exact ⟨_, rfl⟩
  | updS a b2 c2 d =>
    simp only [Remit.run] at h
    obtain ⟨cfg, hx⟩ := remit_update_ok h
    rw [hx.2.2.2.2.2.1]
    exact ⟨_, rfl⟩
  | dist t tok =>
    simp only [Remit.run] at h
    rcases remit_dist_ok h with ⟨_, _, hs⟩ | ⟨_, _, _, _, hs⟩ <;> subst hs <;>
      exact ⟨_, rfl⟩
  | imp snap =>
    simp only [Remit.run] at h
    obtain ⟨cfg, hx⟩ := remit_import_ok h
    rw [hx.2.2.2.2.2.2.2.1]
    exact ⟨_, rfl⟩

theorem goals_run_audit {s : Goals.State} {c ts : Nat} {op : Goals.Op}
    {s' : Goals.State} (h : Goals.run s c ts op = .ok s') :
    ∃ e, s'.audit = append_audit s.audit e := by
  cases op with
  | create nm t dt =>
    simp only [Goals.run] at h
    obtain ⟨i, hx⟩ := except_map_fst_ok h
    obtain ⟨_, _, _, hs⟩ := goals_create_ok hx
    subst hs
    exact ⟨_, rfl⟩
  | add gid amt =>
    simp only [Goals.run] at h
    obtain ⟨na, hx⟩ := except_map_fst_ok h
    obtain ⟨g, hg⟩ := goals_add_ok hx
    rw [hg.2.2.2.2.2.2]
    exact ⟨_, rfl⟩
  | withdraw gid amt =>
    simp only [Goals.run] at h
    obtain ⟨na, hx⟩ := except_map_fst_ok h
    obtain ⟨g, hg⟩ := goals_withdraw_ok hx
    rw [hg.2.2.2.2.2.2]
    exact ⟨_, rfl⟩
  | lock gid =>
    simp only [Goals.run] at h
    obtain ⟨r, hx⟩ := except_map_fst_ok h
    obtain ⟨g, hg⟩ := goals_lock_ok hx
    rw [hg.2.2.2]
    exact ⟨_, rfl⟩
  | unlock gid =>
    simp only [Goals.run] at h
    obtain ⟨r, hx⟩ := except_map_fst_ok h
    obtain ⟨g, hg⟩ := goals_unlock_ok hx
    rw [hg.2.2.2]
    exact ⟨_, rfl⟩
  | imp n2 snap =>
    simp only [Goals.run] at h
    obtain ⟨r, hx⟩ := except_map_fst_ok h
    obtain ⟨_, _, _, _, _, hs⟩ := goals_import_ok hx
    subst hs
    exact ⟨_, rfl⟩

/-- Claim C7: the audit log is a capacity-100 FIFO ring: an append at
capacity evicts index 0 first; a log built by any sequence of appends holds
the most recent at most 100 entries in insertion order, which is exactly
what get_audit_log(0, 200) returns; and every reachable state of either
contract has an audit log of at most 100 entries. -/
theorem c7_audit_capacity_fifo :
    (∀ (log : List AuditEntry) (e : AuditEntry), 100 ≤ log.length →
       append_audit log e = log.drop 1 ++ [e]) ∧
    (∀ es : List AuditEntry,
       es.foldl append_audit [] = es.drop (es.length - 100) ∧
       (es.foldl append_audit []).length = min es.length 100 ∧
       get_audit_log (es.foldl append_audit []) 0 200 =
         es.foldl append_audit []) ∧
    (∀ s : Remit.State, Remit.Reach s → s.audit.length ≤ 100) ∧
    (∀ s : Goals.State, Goals.Reach s → s.audit.length ≤ 100) := by
  refine ⟨?_, ?_, ?_, ?_⟩
  · intro log e h
    rw [append_audit_eq, if_pos (by unfold MAX_AUDIT_ENTRIES; omega)]
  · intro es
    obtain ⟨h1, h2⟩ := foldl_append_audit es
    exact ⟨h1, h2, get_audit_log_all (by omega)⟩
  · intro s h
    induction h with
    | init => simp [Remit.stInit]
    | step hr hrun ih =>
      obtain ⟨e, he⟩ := remit_run_audit hrun
      rw [he]
      exact append_audit_le ih
  · intro s h
    induction h with
    | init => simp [Goals.stInit]
    | step hr hrun ih =>
      obtain ⟨e, he⟩ := goals_run_audit hrun
      rw [he]
      exact append_audit_le ih

/-- Witness for C7: an append at exactly capacity 100 drops the head, and
the fresh states of both contracts satisfy the length bound. -/
theorem c7_witness :
    append_audit (List.replicate 100 ⟨"init", 7, 0, true⟩) ⟨"update", 7, 1, true⟩ =
      (List.replicate 100 (⟨"init", 7, 0, true⟩ : AuditEntry)).drop 1 ++
        [⟨"update", 7, 1, true⟩] ∧
    Remit.stInit.audit.length ≤ 100 ∧
    Goals.stInit.audit.length ≤ 100 :=
  ⟨c7_audit_capacity_fifo.1 _ _ (by simp),
   c7_audit_capacity_fifo.2.2.1 _ Remit.Reach.init,
   c7_audit_capacity_fifo.2.2.2 _ Goals.Reach.init⟩

theorem compute_checksum_ignores_owner_initialized (v : Nat)
    (cfg : Remit.SplitConfig) (o : Nat) (b : Bool) :
    Remit.compute_checksum v
      ⟨o, cfg.spending_percent, cfg.savings_percent, cfg.bills_percent,
       cfg.insurance_percent, b⟩ = Remit.compute_checksum v cfg := rfl

theorem compute_checksum_nowrap {v : Nat} {cfg : Remit.SplitConfig}
    (hv : v < U32) (h1 : cfg.spending_percent < U32)
    (h2 : cfg.savings_percent < U32) (h3 : cfg.bills_percent < U32)
    (h4 : cfg.insurance_percent < U32) :
    Remit.compute_checksum v cfg =
      (v + cfg.spending_percent + cfg.savings_percent + cfg.bills_percent
        + cfg.insurance_percent) * 31 := by
  unfold U32 at hv h1 h2 h3 h4
  unfold Remit.compute_checksum U64
  have m1 : (v + cfg.spending_percent) % 2 ^ 64 = v + cfg.spending_percent :=
    Nat.mod_eq_of_lt (by omega)
  rw [m1]
  have m2 : (v + cfg.spending_percent + cfg.savings_percent) % 2 ^ 64 =
      v + cfg.spending_percent + cfg.savings_percent :=
    Nat.mod_eq_of_lt (by omega)
  rw [m2]
  have m3 : (v + cfg.spending_percent + cfg.savings_percent
      + cfg.bills_percent) % 2 ^ 64 =
      v + cfg.spending_percent + cfg.savings_percent + cfg.bills_percent :=
    Nat.mod_eq_of_lt (by omega)
  rw [m3]
  have m4 : (v + cfg.spending_percent + cfg.savings_percent + cfg.bills_percent
      + cfg.insurance_percent) % 2 ^ 64 =
      v + cfg.spending_percent + cfg.savings_percent + cfg.bills_percent
        + cfg.insurance_percent :=
    Nat.mod_eq_of_lt (by omega)
  rw [m4]
  exact Nat.mod_eq_of_lt (by omega)

theorem goals_checksum_proj {v nid : Nat} {gs gs' : List Goals.SavingsGoal}
    (h : gs.map (fun g => (g.id, g.target_amount, g.current_amount)) =
         gs'.map (fun g => (g.id, g.target_amount, g.current_amount))) :
    Goals.compute_goals_checksum v nid gs =
      Goals.compute_goals_checksum v nid gs' := by
  unfold Goals.compute_goals_checksum
  have key : ∀ (l l' : List Goals.SavingsGoal) (acc : Nat),
      l.map (fun g => (g.id, g.target_amount, g.current_amount)) =
        l'.map (fun g => (g.id, g.target_amount, g.current_amount)) →
      l.foldl (fun c g => (((c + g.id) % U64 + toU64 g.target_amount) % U64
        + toU64 g.current_amount) % U64) acc =
      l'.foldl (fun c g => (((c + g.id) % U64 + toU64 g.target_amount) % U64
        + toU64 g.current_amount) % U64) acc := by
    intro l
    induction l with
    | nil =>
      intro l' acc hm
      cases l' with
      | nil => rfl
      | cons g' t' => exact List.noConfusion hm
    | cons g t ih =>
      intro l' acc hm
      cases l' with
      | nil => exact List.noConfusion hm
      | cons g' t' =>
        simp only [List.map_cons, List.cons.injEq, Prod.mk.injEq] at hm
        obtain ⟨⟨hid, hta, hca⟩, htail⟩ := hm
        simp only [List.foldl_cons]
        rw [hid, hta, hca]
        exact ih t' _ (by simpa using htail)
  rw [key gs gs' _ h]

theorem increment_nonce_error {m : List (Nat × Nat)} {a : Nat} {e : Err}
    (h : increment_nonce m a = .error e) : e = Err.nonceOverflow := by
  unfold increment_nonce at h
  split at h
  · exact Except.noConfusion h
  · injection h with h2
    exact h2.symm

theorem remit_import_ck_mismatch {s : Remit.State} {c ts : Nat}
    {snap : Remit.ExportSnapshot} (hv : snap.version = 1)
    (hck : snap.checksum ≠ Remit.compute_checksum snap.version snap.config) :
    Remit.import_snapshot s c (get_nonce s.nonces c) snap ts =
      .error .checksumMismatch := by
  unfold Remit.import_snapshot
  rw [if_neg (by simp), if_neg (by simp [hv, SNAPSHOT_VERSION]), if_pos hck]

theorem remit_import_no_ck_mismatch {s : Remit.State} {c n ts : Nat}
    {snap : Remit.ExportSnapshot}
    (hck : snap.checksum = Remit.compute_checksum snap.version snap.config) :
    Remit.import_snapshot s c n snap ts ≠ .error .checksumMismatch := by
  intro h
  unfold Remit.import_snapshot at h
  repeat' split at h
  all_goals simp_all
  rename_i hinc
  exact absurd (increment_nonce_error hinc) (by decide)

theorem goals_import_ck_mismatch {s : Goals.State} {c ts : Nat}
    {snap : Goals.GoalsExportSnapshot} (hv : snap.version = 1)
    (hck : snap.checksum ≠
      Goals.compute_goals_checksum snap.version snap.next_id snap.goals) :
    Goals.import_snapshot s c (get_nonce s.nonces c) snap ts =
      .error .checksumMismatch := by
  unfold Goals.import_snapshot
  rw [if_neg (by simp), if_neg (by simp [hv, SNAPSHOT_VERSION]), if_pos hck]

theorem goals_import_no_ck_mismatch {s : Goals.State} {c n ts : Nat}
    {snap : Goals.GoalsExportSnapshot}
    (hck : snap.checksum =
      Goals.compute_goals_checksum snap.version snap.next_id snap.goals) :
    Goals.import_snapshot s c n snap ts ≠ .error .checksumMismatch := by
  intro h
  unfold Goals.import_snapshot at h
  repeat' split at h
  all_goals simp_all
  rename_i hinc
  exact absurd (increment_nonce_error hinc) (by decide)

/-- Claim C4 (amended): snapshot restore rejects a payload with
checksum-mismatch exactly when the recomputed digest differs from the
stored one, and the digest covers only the numeric fields.  For the split
config the digest (under u32-range fields) equals 31 times the sum of
version and the four percentages, so altering a single percentage is
always caught, while altering owner or initialized never changes the
digest; for goals the digest depends only on version, next_id and each
goal's (id, target_amount, current_amount), so altering a goal's owner,
name, target_date or locked flag never changes the digest and is not
rejected. -/
theorem c4_checksum_field_coverage :
    (∀ (v : Nat) (cfg cfg' : Remit.SplitConfig), v < U32 →
       cfg.spending_percent < U32 → cfg.savings_percent < U32 →
       cfg.bills_percent < U32 → cfg.insurance_percent < U32 →
       cfg'.spending_percent < U32 → cfg'.savings_percent < U32 →
       cfg'.bills_percent < U32 → cfg'.insurance_percent < U32 →
       (Remit.compute_checksum v cfg = Remit.compute_checksum v cfg' ↔
        cfg.spending_percent + cfg.savings_percent + cfg.bills_percent
          + cfg.insurance_percent =
        cfg'.spending_percent + cfg'.savings_percent + cfg'.bills_percent
          + cfg'.insurance_percent)) ∧
    (∀ (v : Nat) (cfg : Remit.SplitConfig) (o : Nat) (b : Bool),
       Remit.compute_checksum v
         ⟨o, cfg.spending_percent, cfg.savings_percent, cfg.bills_percent,
          cfg.insurance_percent, b⟩ = Remit.compute_checksum v cfg) ∧
    (∀ (s : Remit.State) (c ts : Nat) (cfg cfg' : Remit.SplitConfig),
       cfg.spending_percent < U32 → cfg.savings_percent < U32 →
       cfg.bills_percent < U32 → cfg.insurance_percent < U32 →
       cfg'.spending_percent < U32 → cfg'.savings_percent < U32 →
       cfg'.bills_percent < U32 → cfg'.insurance_percent < U32 →
       cfg.spending_percent + cfg.savings_percent + cfg.bills_percent
         + cfg.insurance_percent ≠
       cfg'.spending_percent + cfg'.savings_percent + cfg'.bills_percent
         + cfg'.insurance_percent →
       Remit.import_snapshot s c (get_nonce s.nonces c)
         ⟨1, Remit.compute_checksum 1 cfg, cfg'⟩ ts =
         .error .checksumMismatch) ∧
    (∀ (s : Remit.State) (c n ts : Nat) (snap : Remit.ExportSnapshot),
       snap.checksum = Remit.compute_checksum snap.version snap.config →
       Remit.import_snapshot s c n snap ts ≠ .error .checksumMismatch) ∧
    (∀ (v nid : Nat) (gs gs' : List Goals.SavingsGoal),
       gs.map (fun g => (g.id, g.target_amount, g.current_amount)) =
         gs'.map (fun g => (g.id, g.target_amount, g.current_amount)) →
       Goals.compute_goals_checksum v nid gs =
         Goals.compute_goals_checksum v nid gs') ∧
    (∀ (s : Goals.State) (c n ts : Nat) (snap : Goals.GoalsExportSnapshot),
       snap.checksum =
         Goals.compute_goals_checksum snap.version snap.next_id snap.goals →
       Goals.import_snapshot s c n snap ts ≠ .error .checksumMismatch) := by
  have hiff : ∀ (v : Nat) (cfg cfg' : Remit.SplitConfig), v < U32 →
      cfg.spending_percent < U32 → cfg.savings_percent < U32 →
      cfg.bills_percent < U32 → cfg.insurance_percent < U32 →
      cfg'.spending_percent < U32 → cfg'.savings_percent < U32 →
      cfg'.bills_percent < U32 → cfg'.insurance_percent < U32 →
      (Remit.compute_checksum v cfg = Remit.compute_checksum v cfg' ↔
       cfg.spending_percent + cfg.savings_percent + cfg.bills_percent
         + cfg.insurance_percent =
       cfg'.spending_percent + cfg'.savings_percent + cfg'.bills_percent
         + cfg'.insurance_percent) := by
    intro v cfg cfg' hv a1 a2 a3 a4 b1 b2 b3 b4
    rw [compute_checksum_nowrap hv a1 a2 a3 a4,
        compute_checksum_nowrap hv b1 b2 b3 b4]
    constructor <;> intro h <;> omega
  refine ⟨hiff, ?_, ?_, ?_, ?_, ?_⟩
  · intro v cfg o b
    exact compute_checksum_ignores_owner_initialized v cfg o b
  · intro s c ts cfg cfg' a1 a2 a3 a4 b1 b2 b3 b4 hne
    apply remit_import_ck_mismatch rfl
    intro hbad
    have h32 : (1 : Nat) < U32 := by unfold U32; norm_num
    exact hne ((hiff 1 cfg cfg' h32 a1 a2 a3 a4 b1 b2 b3 b4).mp hbad)
  · intro s c n ts snap hck
    exact remit_import_no_ck_mismatch hck
  · intro v nid gs gs' h
    exact goals_checksum_proj h
  · intro s c n ts snap hck
    exact goals_import_no_ck_mismatch hck

/-- Witness for C4 (amended): bumping the spending percentage of the
default config from 50 to 51 while keeping the exported checksum makes the
restore fail with checksum-mismatch. -/
theorem c4_witness :
    Remit.import_snapshot Remit.stInit 7 0
      ⟨1, Remit.compute_checksum 1 ⟨7, 50, 30, 15, 5, true⟩,
       ⟨7, 51, 30, 15, 5, true⟩⟩ 3 = .error .checksumMismatch := by
  have hb : (50 : Nat) < U32 ∧ (51 : Nat) < U32 ∧ (30 : Nat) < U32 ∧
      (15 : Nat) < U32 ∧ (5 : Nat) < U32 := by
    unfold U32
    norm_num
  exact c4_checksum_field_coverage.2.2.1 Remit.stInit 7 3
    ⟨7, 50, 30, 15, 5, true⟩ ⟨7, 51, 30, 15, 5, true⟩
    hb.1 hb.2.2.1 hb.2.2.2.1 hb.2.2.2.2 hb.2.1 hb.2.2.1 hb.2.2.2.1 hb.2.2.2.2
    (by norm_num)

/-- Counterexample to claim C4 as stated: export a one-goal state, flip the
goal's locked flag in the payload (a single field of one goal), and the
restore succeeds instead of failing with checksum-mismatch, because the
digest does not cover the locked flag. -/
theorem c4_counterexample :
    Goals.export_snapshot ⟨[(1, ⟨1, 7, "e", 100, 0, 0, true⟩)], 1, [], []⟩ 7 =
      ⟨1, 3193, 1, [⟨1, 7, "e", 100, 0, 0, true⟩]⟩ ∧
    (⟨1, 7, "e", 100, 0, 0, false⟩ : Goals.SavingsGoal) ≠
      ⟨1, 7, "e", 100, 0, 0, true⟩ ∧
    Goals.import_snapshot ⟨[(1, ⟨1, 7, "e", 100, 0, 0, true⟩)], 1, [], []⟩ 7 0
      ⟨1, 3193, 1, [⟨1, 7, "e", 100, 0, 0, false⟩]⟩ 9 =
      .ok (⟨[(1, ⟨1, 7, "e", 100, 0, 0, false⟩)], 1, [(7, 1)],
            [⟨"import", 7, 9, true⟩]⟩, true) :=
  ⟨by rfl, by decide, by rfl⟩

theorem remit_import_not_owner {s : Remit.State} {c ts : Nat}
    {snap : Remit.ExportSnapshot} {cfg : Remit.SplitConfig}
    (hv : snap.version = 1)
    (hck : snap.checksum = Remit.compute_checksum snap.version snap.config)
    (hcfg : s.config = some cfg) (how : cfg.owner ≠ c) :
    Remit.import_snapshot s c (get_nonce s.nonces c) snap ts =
      .error .notOwner := by
  unfold Remit.import_snapshot
  rw [if_neg (by simp), if_neg (by simp [hv, SNAPSHOT_VERSION]),
      if_neg (by simp [hck])]
  simp only [hcfg]
  rw [if_pos how]

theorem remit_import_success {s : Remit.State} {c ts : Nat}
    {snap : Remit.ExportSnapshot} {cfg : Remit.SplitConfig}
    (hv : snap.version = 1)
    (hck : snap.checksum = Remit.compute_checksum snap.version snap.config)
    (hcfg : s.config = some cfg) (how : cfg.owner = c)
    (hsum : snap.config.spending_percent + snap.config.savings_percent
      + snap.config.bills_percent + snap.config.insurance_percent = 100)
    (hlt : get_nonce s.nonces c + 1 < U64) :
    Remit.import_snapshot s c (get_nonce s.nonces c) snap ts =
      .ok (⟨some snap.config,
            some (snap.config.spending_percent, snap.config.savings_percent,
                  snap.config.bills_percent, snap.config.insurance_percent),
            amSet s.nonces c (get_nonce s.nonces c + 1),
            append_audit s.audit ⟨"import", c, ts, true⟩⟩, true) := by
  unfold Remit.import_snapshot
  rw [if_neg (by simp), if_neg (by simp [hv, SNAPSHOT_VERSION]),
      if_neg (by simp [hck])]
  simp only [hcfg]
  rw [if_neg (by simp [how])]
  rw [sum4_of_eq_100 hsum]
  rw [show increment_nonce s.nonces c =
      .ok (amSet s.nonces c (get_nonce s.nonces c + 1)) from by
    unfold increment_nonce
    rw [if_pos hlt]]
  rfl

theorem goals_import_success {s : Goals.State} {c ts : Nat}
    {snap : Goals.GoalsExportSnapshot}
    (hv : snap.version = 1)
    (hck : snap.checksum =
      Goals.compute_goals_checksum snap.version snap.next_id snap.goals)
    (hlt : get_nonce s.nonces c + 1 < U64) :
    Goals.import_snapshot s c (get_nonce s.nonces c) snap ts =
      .ok (⟨snap.goals.foldl (fun acc g => amSet acc g.id g) [], snap.next_id,
            amSet s.nonces c (get_nonce s.nonces c + 1),
            append_audit s.audit ⟨"import", c, ts, true⟩⟩, true) := by
  unfold Goals.import_snapshot
  rw [if_neg (by simp), if_neg (by simp [hv, SNAPSHOT_VERSION]),
      if_neg (by simp [hck])]
  rw [show increment_nonce s.nonces c =
      .ok (amSet s.nonces c (get_nonce s.nonces c + 1)) from by
    unfold increment_nonce
    rw [if_pos hlt]]

/-- Claim C5 (amended): for the remittance-split contract, a correct-nonce,
version- and checksum-valid restore fails with the not-owner error whenever
the stored config's owner differs from the caller, and when the owner
matches (and the snapshot percentages sum to 100) it replaces CONFIG and
SPLIT with the payload, advances the caller's nonce and appends a success
audit entry.  The savings-goals restore, however, performs no owner check
at all: with a correct nonce and a version- and checksum-valid snapshot it
always replaces the whole goals map and next_id, regardless of who owns
the stored goals. -/
theorem c5_import_owner_check :
    (∀ (s : Remit.State) (c ts : Nat) (snap : Remit.ExportSnapshot)
       (cfg : Remit.SplitConfig), snap.version = 1 →
       snap.checksum = Remit.compute_checksum snap.version snap.config →
       s.config = some cfg → cfg.owner ≠ c →
       Remit.import_snapshot s c (get_nonce s.nonces c) snap ts =
         .error .notOwner) ∧
    (∀ (s : Remit.State) (c ts : Nat) (snap : Remit.ExportSnapshot)
       (cfg : Remit.SplitConfig), snap.version = 1 →
       snap.checksum = Remit.compute_checksum snap.version snap.config →
       s.config = some cfg → cfg.owner = c →
       snap.config.spending_percent + snap.config.savings_percent
         + snap.config.bills_percent + snap.config.insurance_percent = 100 →
       get_nonce s.nonces c + 1 < U64 →
       Remit.import_snapshot s c (get_nonce s.nonces c) snap ts =
         .ok (⟨some snap.config,
               some (snap.config.spending_percent, snap.config.savings_percent,
                     snap.config.bills_percent, snap.config.insurance_percent),
               amSet s.nonces c (get_nonce s.nonces c + 1),
               append_audit s.audit ⟨"import", c, ts, true⟩⟩, true)) ∧
    (∀ (s : Goals.State) (c ts : Nat) (snap : Goals.GoalsExportSnapshot),
       snap.version = 1 →
       snap.checksum =
         Goals.compute_goals_checksum snap.version snap.next_id snap.goals →
       get_nonce s.nonces c + 1 < U64 →
       Goals.import_snapshot s c (get_nonce s.nonces c) snap ts =
         .ok (⟨snap.goals.foldl (fun acc g => amSet acc g.id g) [],
               snap.next_id,
               amSet s.nonces c (get_nonce s.nonces c + 1),
               append_audit s.audit ⟨"import", c, ts, true⟩⟩, true)) :=
  ⟨fun _s _c _ts _snap _cfg hv hck hcfg how =>
     remit_import_not_owner hv hck hcfg how,
   fun _s _c _ts _snap _cfg hv hck hcfg how hsum hlt =>
     remit_import_success hv hck hcfg how hsum hlt,
   fun _s _c _ts _snap hv hck hlt => goals_import_success hv hck hlt⟩

/-- Witness for C5 (amended): a non-owner restore of a valid split snapshot
is rejected with not-owner, and an owner restore of a valid split snapshot
replaces the configuration. -/
theorem c5_witness :
    Remit.import_snapshot ⟨some ⟨7, 50, 30, 15, 5, true⟩,
      some (50, 30, 15, 5), [], []⟩ 9 0
      ⟨1, 3131, ⟨9, 50, 30, 15, 5, true⟩⟩ 4 = .error .notOwner ∧
    Remit.import_snapshot ⟨some ⟨7, 50, 30, 15, 5, true⟩,
      some (50, 30, 15, 5), [], []⟩ 7 0
      ⟨1, 3131, ⟨7, 40, 40, 10, 10, true⟩⟩ 4 =
      .ok (⟨some ⟨7, 40, 40, 10, 10, true⟩, some (40, 40, 10, 10), [(7, 1)],
            [⟨"import", 7, 4, true⟩]⟩, true) := by
  constructor
  · exact c5_import_owner_check.1 _ 9 4 _ ⟨7, 50, 30, 15, 5, true⟩
      (by rfl) (by rfl) (by rfl) (by decide)
  · exact c5_import_owner_check.2.1 _ 7 4 _ ⟨7, 50, 30, 15, 5, true⟩
      (by rfl) (by rfl) (by rfl) (by rfl) (by norm_num)
      (by unfold U64 get_nonce amGet; norm_num)

/-- Counterexample to claim C5 as stated: the savings-goals store holds a
goal owned by principal 7, yet principal 9 restores a checksum-valid
snapshot with a correct nonce and the call succeeds (wiping the store)
instead of failing with a not-owner error. -/
theorem c5_counterexample :
    (amGet (⟨[(1, ⟨1, 7, "e", 100, 0, 0, true⟩)], 1, [], []⟩ :
        Goals.State).goals 1).map Goals.SavingsGoal.owner = some 7 ∧
    (7 : Nat) ≠ 9 ∧
    Goals.import_snapshot ⟨[(1, ⟨1, 7, "e", 100, 0, 0, true⟩)], 1, [], []⟩ 9 0
      ⟨1, 31, 0, []⟩ 5 =
      .ok (⟨[], 0, [(9, 1)], [⟨"import", 9, 5, true⟩]⟩, true) :=
  ⟨by rfl, by decide, by rfl⟩

theorem amGet_eq_none {α : Type} {m : List (Nat × α)} {j : Nat}
    (h : ∀ kv ∈ m, kv.1 ≠ j) : amGet m j = none := by
  induction m with
  | nil => rfl
  | cons kv t ih =>
    obtain ⟨k0, v0⟩ := kv
    unfold amGet
    rw [if_neg]
    · exact ih fun kv hm => h kv (List.mem_cons_of_mem _ hm)
    · intro hj
      exact h (k0, v0) (List.mem_cons_self _ _) (by simp [hj])

theorem amGet_cons_ne {α : Type} {k0 : Nat} {v0 : α}
    {t : List (Nat × α)} {j : Nat} (h : j ≠ k0) :
    amGet ((k0, v0) :: t) j = amGet t j := by
  simp only [amGet]
  rw [if_neg h]

theorem collect_sorted :
    ∀ (len : Nat) (m : List (Nat × Goals.SavingsGoal)) (lo : Nat),
    List.Pairwise (fun x y => x.1 < y.1) m →
    (∀ kv ∈ m, lo ≤ kv.1 ∧ kv.1 < lo + len) →
    (List.range' lo len).filterMap (fun i => amGet m i) = m.map Prod.snd := by
  intro len
  induction len with
  | zero =>
    intro m lo hsort hb
    cases m with
    | nil => rfl
    | cons kv t =>
      have := hb kv (List.mem_cons_self _ _)
      omega
  | succ len ih =>
    intro m lo hsort hb
    rw [List.range'_succ]
    cases m with
    | nil =>
      rw [List.filterMap_cons_none (by rfl)]
      exact ih [] (lo + 1) List.Pairwise.nil (by simp)
    | cons kv t =>
      obtain ⟨k, v⟩ := kv
      by_cases hk : k = lo
      · rw [List.filterMap_cons_some
          (show amGet ((k, v) :: t) lo = some v from by
            unfold amGet; rw [if_pos hk.symm])]
        have hrest : (List.range' (lo + 1) len).filterMap
            (fun i => amGet ((k, v) :: t) i) =
            (List.range' (lo + 1) len).filterMap (fun i => amGet t i) := by
          apply List.filterMap_congr
          intro i hi
          obtain ⟨j, hj, hij⟩ := List.mem_range'.mp hi
          exact amGet_cons_ne (by omega)
        rw [hrest]
        rw [ih t (lo + 1) (List.Pairwise.sublist (List.sublist_cons_self _ _) hsort)
          (fun kv hm => ?_)]
        · rfl
        · have h1 := (List.pairwise_cons.mp hsort).1 kv hm
          have h2 := hb kv (List.mem_cons_of_mem _ hm)
          omega
      · have hnone : amGet ((k, v) :: t) lo = none := by
          apply amGet_eq_none
          intro kv hm
          rcases List.mem_cons.mp hm with rfl | hm2
          · simpa using hk
          · have h1 := (List.pairwise_cons.mp hsort).1 kv hm2
            have h2 := hb (k, v) (List.mem_cons_self _ _)
            omega
        rw [List.filterMap_cons_none hnone]
        apply ih ((k, v) :: t) (lo + 1) hsort
        intro kv hm
        rcases List.mem_cons.mp hm with rfl | hm2
        · have := hb (k, v) (List.mem_cons_self _ _)
          omega
        · have h1 := (List.pairwise_cons.mp hsort).1 kv hm2
          have h2 := hb (k, v) (List.mem_cons_self _ _)
          have h3 := hb kv (List.mem_cons_of_mem _ hm2)
          omega

theorem amSet_append_max {α : Type} {acc : List (Nat × α)} {k : Nat} {v : α}
    (h : ∀ kv ∈ acc, kv.1 < k) : amSet acc k v = acc ++ [(k, v)] := by
  induction acc with
  | nil => rfl
  | cons kv t ih =>
    obtain ⟨k0, v0⟩ := kv
    have hk0 : k0 < k := by simpa using h (k0, v0) (List.mem_cons_self _ _)
    unfold amSet
    rw [if_neg (by omega), if_neg (by omega)]
    rw [ih fun kv hm => h kv (List.mem_cons_of_mem _ hm)]
    rfl

theorem rebuild_sorted :
    ∀ (m acc : List (Nat × Goals.SavingsGoal)),
    List.Pairwise (fun x y => x.1 < y.1) (acc ++ m) →
    (∀ kv ∈ m, kv.2.id = kv.1) →
    (m.map Prod.snd).foldl (fun a g => amSet a g.id g) acc = acc ++ m := by
  intro m
  induction m with
  | nil =>
    intro acc hsort hid
    simp
  | cons kv t ih =>
    intro acc hsort hid
    obtain ⟨k, v⟩ := kv
    have hvid : v.id = k := hid (k, v) (List.mem_cons_self _ _)
    simp only [List.map_cons, List.foldl_cons]
    rw [hvid]
    have hmax : ∀ kv ∈ acc, kv.1 < k := by
      intro kv hm
      exact (List.pairwise_append.mp hsort).2.2 kv hm (k, v)
        (List.mem_cons_self _ _)
    rw [amSet_append_max hmax]
    have hassoc : acc ++ [(k, v)] ++ t = acc ++ (k, v) :: t := by
      rw [List.append_assoc]
      rfl
    rw [ih (acc ++ [(k, v)]) (by rw [hassoc]; exact hsort)
      (fun kv hm => hid kv (List.mem_cons_of_mem _ hm))]
    exact hassoc

theorem remit_reach_inv {s : Remit.State} (h : Remit.Reach s) :
    ∀ cfg : Remit.SplitConfig, s.config = some cfg →
      cfg.spending_percent + cfg.savings_percent + cfg.bills_percent
        + cfg.insurance_percent = 100 ∧
      s.split = some (cfg.spending_percent, cfg.savings_percent,
                      cfg.bills_percent, cfg.insurance_percent) := by
  induction h with
  | init => intro cfg hcfg; exact Option.noConfusion hcfg
  | step hr hrun ih =>
    rename_i s s' c n ts op b
    intro cfg hcfg
    cases op with
    | initS a b2 c2 d =>
      simp only [Remit.run] at hrun
      obtain ⟨_, _, hsum, _, hs, _⟩ := remit_init_ok hrun
      subst hs
      simp only at hcfg
      injection hcfg with hcfg2
      subst hcfg2
      exact ⟨hsum, rfl⟩
    | updS a b2 c2 d =>
      simp only [Remit.run] at hrun
      obtain ⟨cfg0, _, _, _, hsum, _, hs, _⟩ := remit_update_ok hrun
      subst hs
      simp only at hcfg
      injection hcfg with hcfg2
      subst hcfg2
      exact ⟨hsum, rfl⟩
    | dist t tok =>
      simp only [Remit.run] at hrun
      rcases remit_dist_ok hrun with ⟨_, _, hs⟩ | ⟨_, _, _, _, hs⟩ <;> subst hs <;>
        exact ih cfg hcfg
    | imp snap =>
      simp only [Remit.run] at hrun
      obtain ⟨cfg0, _, _, _, _, _, hsum, _, hs, _⟩ := remit_import_ok hrun
      subst hs
      simp only at hcfg
      injection hcfg with hcfg2
      subst hcfg2
      exact ⟨hsum, rfl⟩

/-- Well-formedness of a savings-goals store: the map is key-sorted (as a
Soroban map is), every stored goal's id field equals its key, and every key
lies in 1..next_id.  Every state reachable without restoring an
id-inconsistent snapshot satisfies this. -/
def GoalsWF (s : Goals.State) : Prop :=
  List.Pairwise (fun x y => x.1 < y.1) s.goals ∧
  (∀ kv ∈ s.goals, kv.2.id = kv.1) ∧
  (∀ kv ∈ s.goals, 1 ≤ kv.1 ∧ kv.1 ≤ s.next_id)

/-- Claim C6 (amended): the snapshot round trip restores the exported state
portion exactly for every reachable split state owned by the caller, and
for every well-formed savings-goals state (all stored goal ids within
1..next_id, ids consistent with keys); a crafted restored snapshot can
place goal ids outside 1..next_id, after which export misses them and the
round trip is lossy. -/
theorem c6_snapshot_round_trip :
    (∀ (s : Remit.State) (cfg : Remit.SplitConfig) (o ts : Nat),
       Remit.Reach s → s.config = some cfg → cfg.owner = o →
       get_nonce s.nonces o + 1 < U64 →
       Remit.export_snapshot s o =
         .ok (some ⟨1, Remit.compute_checksum 1 cfg, cfg⟩) ∧
       (Remit.import_snapshot s o (get_nonce s.nonces o)
           ⟨1, Remit.compute_checksum 1 cfg, cfg⟩ ts).map
         (fun p => (p.1.config, p.1.split, p.2)) =
         .ok (s.config, s.split, true)) ∧
    (∀ (s : Goals.State) (o ts : Nat), GoalsWF s →
       get_nonce s.nonces o + 1 < U64 →
       (Goals.import_snapshot s o (get_nonce s.nonces o)
           (Goals.export_snapshot s o) ts).map
         (fun p => (p.1.goals, p.1.next_id, p.2)) =
         .ok (s.goals, s.next_id, true)) := by
  constructor
  · intro s cfg o ts hre hcfg how hlt
    obtain ⟨hsum, hsplit⟩ := remit_reach_inv hre cfg hcfg
    constructor
    · unfold Remit.export_snapshot
      simp only [hcfg]
      rw [if_neg (by simp [how])]
      rfl
    · rw [remit_import_success (by rfl)
        (by rfl) hcfg how hsum hlt]
      simp only [Except.map]
      rw [hcfg, hsplit]
  · intro s o ts hwf hlt
    obtain ⟨hsort, hid, hb⟩ := hwf
    have hcol : Goals.collectGoals s.goals s.next_id = s.goals.map Prod.snd := by
      unfold Goals.collectGoals
      exact collect_sorted s.next_id s.goals 1 hsort
        (fun kv hm => by have := hb kv hm; omega)
    have hsnap : Goals.export_snapshot s o =
        ⟨1, Goals.compute_goals_checksum 1 s.next_id (s.goals.map Prod.snd),
         s.next_id, s.goals.map Prod.snd⟩ := by
      unfold Goals.export_snapshot
      rw [hcol]
      rfl
    rw [hsnap]
    rw [goals_import_success (by rfl) (by rfl) hlt]
    simp only [Except.map]
    rw [show (⟨1, Goals.compute_goals_checksum 1 s.next_id
        (s.goals.map Prod.snd), s.next_id, s.goals.map Prod.snd⟩ :
        Goals.GoalsExportSnapshot).goals.foldl
        (fun acc g => amSet acc g.id g) [] = s.goals from by
      have := rebuild_sorted s.goals [] (by simpa using hsort) hid
      simpa using this]

/-- Witness for C6 (amended): round trips on a freshly initialized split
state and on a well-formed one-goal savings state restore the exported
portions exactly. -/
theorem c6_witness :
    Remit.export_snapshot ⟨some ⟨7, 50, 30, 15, 5, true⟩, some (50, 30, 15, 5),
      [(7, 1)], [⟨"init", 7, 0, true⟩]⟩ 7 =
      .ok (some ⟨1, 3131, ⟨7, 50, 30, 15, 5, true⟩⟩) ∧
    (Remit.import_snapshot ⟨some ⟨7, 50, 30, 15, 5, true⟩, some (50, 30, 15, 5),
        [(7, 1)], [⟨"init", 7, 0, true⟩]⟩ 7 1
        ⟨1, 3131, ⟨7, 50, 30, 15, 5, true⟩⟩ 9).map
      (fun p => (p.1.config, p.1.split, p.2)) =
      .ok (some ⟨7, 50, 30, 15, 5, true⟩, some (50, 30, 15, 5), true) ∧
    (Goals.import_snapshot ⟨[(1, ⟨1, 7, "e", 100, 0, 0, true⟩)], 1, [], []⟩ 7 0
        (Goals.export_snapshot ⟨[(1, ⟨1, 7, "e", 100, 0, 0, true⟩)], 1, [], []⟩ 7)
        9).map (fun p => (p.1.goals, p.1.next_id, p.2)) =
      .ok ([(1, ⟨1, 7, "e", 100, 0, 0, true⟩)], 1, true) := by
  have hreach : Remit.Reach ⟨some ⟨7, 50, 30, 15, 5, true⟩, some (50, 30, 15, 5),
      [(7, 1)], [⟨"init", 7, 0, true⟩]⟩ :=
    Remit.Reach.step Remit.Reach.init
      (show Remit.run Remit.stInit 7 0 0 (.initS 50 30 15 5) =
        .ok (⟨some ⟨7, 50, 30, 15, 5, true⟩, some (50, 30, 15, 5), [(7, 1)],
              [⟨"init", 7, 0, true⟩]⟩, true) from by rfl)
  have h1 := c6_snapshot_round_trip.1
    ⟨some ⟨7, 50, 30, 15, 5, true⟩, some (50, 30, 15, 5), [(7, 1)],
     [⟨"init", 7, 0, true⟩]⟩ ⟨7, 50, 30, 15, 5, true⟩ 7 9 hreach (by rfl)
    (by rfl) (by decide)
  have hwf : GoalsWF ⟨[(1, ⟨1, 7, "e", 100, 0, 0, true⟩)], 1, [], []⟩ := by
    refine ⟨?_, ?_, ?_⟩
    · simp
    · intro kv hm
      rcases List.mem_singleton.mp hm with rfl
      rfl
    · intro kv hm
      rcases List.mem_singleton.mp hm with rfl
      exact ⟨by norm_num, by norm_num⟩
  have h2 := c6_snapshot_round_trip.2
    ⟨[(1, ⟨1, 7, "e", 100, 0, 0, true⟩)], 1, [], []⟩ 7 9 hwf (by decide)
  exact ⟨h1.1, h1.2, h2⟩

/-- Counterexample to claim C6 as stated: restoring a crafted checksum-valid
snapshot holding a goal with id 5 but next_id 0 yields a reachable state
whose records are owned by principal 7; the round trip by 7 succeeds but
export misses the orphan goal (the export loop scans ids 1..next_id only),
so the state after the round trip has an empty goals map instead of the
goal that was there at export time. -/
theorem c6_counterexample :
    Goals.Reach ⟨[(5, ⟨5, 7, "e", 100, 0, 0, true⟩)], 0, [(7, 1)],
      [⟨"import", 7, 0, true⟩]⟩ ∧
    Goals.export_snapshot ⟨[(5, ⟨5, 7, "e", 100, 0, 0, true⟩)], 0, [(7, 1)],
      [⟨"import", 7, 0, true⟩]⟩ 7 = ⟨1, 31, 0, []⟩ ∧
    Goals.import_snapshot ⟨[(5, ⟨5, 7, "e", 100, 0, 0, true⟩)], 0, [(7, 1)],
      [⟨"import", 7, 0, true⟩]⟩ 7 1 ⟨1, 31, 0, []⟩ 1 =
      .ok (⟨[], 0, [(7, 2)], [⟨"import", 7, 0, true⟩, ⟨"import", 7, 1, true⟩]⟩,
        true) ∧
    ([] : List (Nat × Goals.SavingsGoal)) ≠
      [(5, ⟨5, 7, "e", 100, 0, 0, true⟩)] := by
  refine ⟨Goals.Reach.step Goals.Reach.init
    (show Goals.run Goals.stInit 7 0
      (.imp 0 ⟨1, 3286, 0, [⟨5, 7, "e", 100, 0, 0, true⟩]⟩) =
      .ok ⟨[(5, ⟨5, 7, "e", 100, 0, 0, true⟩)], 0, [(7, 1)],
           [⟨"import", 7, 0, true⟩]⟩ from by rfl), by rfl, by rfl, by decide⟩
